import Mathlib

/-!
# Verification of the bluebird-tapes ASCII-art generation pipeline

Shallow embedding of the image-to-character-art pipeline of the repository:

* `src/frontend/scripts/ascii-batch-generator/imageProcessor.ts` (the batch
  "CPU mode" path: `getBrightness`, `kMeansCluster`, `findNearestColor`,
  `processImage`),
* `src/frontend/scripts/ascii-batch-generator/index.ts` (`parseArgs`),
* the interactive generator `AsciiGenerator.tsx` (`src/unnamed/part_015`:
  `calculateSSIM`, `kMeansCluster` with ambient `Math.random` seeding,
  `findNearestColor`, the `processImage` callback with transparency handling,
  structure-mode SSIM matching and the GPU-result fallback).

Modelling conventions, stated once:

* JavaScript numbers are modelled as exact rationals (`ℚ`).  All the
  quantities the claims are about (per-cell sums, means, SSIM, Euclidean
  distances) are arithmetic over small magnitudes where the double-precision
  evaluation in the source tracks the exact value; where the source compares
  `Math.sqrt` of sums of squares we compare the squares themselves, which is
  the same predicate because `sqrt` is strictly monotone on nonnegative reals.
* The external image decoder and the canvas resampler are out of scope (the
  spec treats them as external collaborators); the embedded pipeline takes the
  post-`getImageData` RGBA byte array of the canvas as its input, together
  with the original image dimensions from which the cell geometry is computed.
* The `while` loop that seeds k-means centroids has no bound in the source; it
  is embedded with an explicit `fuel` parameter counting loop iterations, and
  every theorem below is quantified over `fuel` (or holds for all `fuel ≥ 1`),
  so each theorem is a statement about every state in which the source loop
  can exit.
* The interactive seeding draws from the ambient `Math.random` stream; that
  stream is modelled as an explicit function `ℕ → ℚ` giving the successive
  draws.  The batch seeding (`imageProcessor.ts` lines 58-73) computes its own
  LCG from `colors.length` and never reads the ambient stream; its embedding
  takes the ambient stream as an argument and ignores it, which is exactly
  what the source does to its environment.
-/

/-- RGB colour record (`interface RGB { r; g; b }`).  Channels are rationals
(JS numbers); pixel data supplies naturals `0..255`, centroid updates produce
`Math.round`ed values. -/
structure RGB where
  r : ℚ
  g : ℚ
  b : ℚ
deriving DecidableEq, Repr

/-- `Math.round`: rounds half toward positive infinity, `⌊q + 1/2⌋`. -/
def jsRound (q : ℚ) : ℚ := (⌊q + 1/2⌋ : ℤ)

/-- `getBrightness(r, g, b) = 0.299*r + 0.587*g + 0.114*b`
(`imageProcessor.ts` lines 37-39, identically in `AsciiGenerator.tsx`). -/
def getBrightness (r g b : ℚ) : ℚ := 0.299 * r + 0.587 * g + 0.114 * b

/-- Squared Euclidean RGB distance.  The source compares
`Math.sqrt((Δr)²+(Δg)²+(Δb)²)`; comparisons of the square roots of
nonnegative quantities agree with comparisons of the squares, so the
embedding compares squares. -/
def distSq (a c : RGB) : ℚ :=
  (a.r - c.r) ^ 2 + (a.g - c.g) ^ 2 + (a.b - c.b) ^ 2

/-- Index of the nearest centroid: the source loops `i` over `centroids` with
`minDist = Infinity; if (dist < minDist)`, so the first strict minimum wins
and an empty centroid list leaves the initial index `0`.  `none` for the
accumulated best distance plays the role of `Infinity`. -/
def nearestIdxGo (c : RGB) : List RGB → ℕ → Option ℚ → ℕ → ℕ
  | [], _, _, best => best
  | p :: ps, i, bd, best =>
    if (match bd with | none => true | some d0 => decide (distSq c p < d0)) then
      nearestIdxGo c ps (i + 1) (some (distSq c p)) i
    else
      nearestIdxGo c ps (i + 1) bd best

/-- Nearest-centroid index (`kMeansCluster`, assignment loop). -/
def nearestIdx (c : RGB) (centroids : List RGB) : ℕ :=
  nearestIdxGo c centroids 0 none 0

/-- Channel-wise rounded mean of a nonempty observation list: the source's
centroid update `{ r: Math.round(Σr/len), ... }`. -/
def roundedMeanRGB (l : List RGB) : RGB :=
  { r := jsRound ((l.map RGB.r).sum / l.length)
    g := jsRound ((l.map RGB.g).sum / l.length)
    b := jsRound ((l.map RGB.b).sum / l.length) }

/-- Channel-wise exact mean (used only by the spec-side algorithm below, for
comparison with the source's rounded update). -/
def exactMeanRGB (l : List RGB) : RGB :=
  { r := (l.map RGB.r).sum / l.length
    g := (l.map RGB.g).sum / l.length
    b := (l.map RGB.b).sum / l.length }

/-- One step of the batch generator's LCG
(`seedVal = (seedVal * 1103515245 + 12345) & 0x7fffffff`), idealised to exact
integer arithmetic.  (In JavaScript the product exceeds 2^53 so the masked
low bits are additionally subject to double rounding.  No theorem below
depends on the numeric orbit of this map: the claim-C10 theorems use only
the range bound `lcgStep s < 2^31`, which the binary64 evaluation shares —
`& 0x7fffffff` maps every value, however rounded, into `[0, 2^31)`.) -/
def lcgStep (s : ℕ) : ℕ := (s * 1103515245 + 12345) % (2 ^ 31)

/-- The `t`-th draw of the batch PRNG seeded from `seed = colors.length`:
`pseudoRandom()` advances the state before dividing, so draw `t` uses the
state after `t+1` steps, divided by `0x7fffffff`. -/
def lcgSampler (seed : ℕ) (t : ℕ) : ℚ :=
  ((lcgStep^[t + 1] seed : ℕ) : ℚ) / 0x7fffffff

/-- `Math.floor(draw * colors.length)` for the `t`-th draw, as a natural
index (every draw the source produces is nonnegative). -/
def drawIdx (sampler : ℕ → ℚ) (n t : ℕ) : ℕ := (⌊sampler t * n⌋).toNat

/-- Centroid-seeding loop of `kMeansCluster`:
`while (centroids.length < k && centroids.length < colors.length)` draw an
index, skip it if already used, otherwise push `colors[idx]`.  `sampler t` is
the `t`-th random draw, `fuel` bounds the number of loop iterations (the
source loop is unbounded; all theorems quantify over `fuel`).
`colors.getD idx ⟨0,0,0⟩`: a draw of exactly `1` would index one past the end,
where the source would spread `undefined` into an empty object; the default
is irrelevant to every theorem below. -/
def seedLoop (sampler : ℕ → ℚ) (colors : List RGB) (k : ℕ) :
    ℕ → ℕ → Finset ℕ → List RGB → List RGB
  | 0, _, _, cents => cents
  | fuel + 1, t, used, cents =>
    if cents.length < k ∧ cents.length < colors.length then
      if drawIdx sampler colors.length t ∈ used then
        seedLoop sampler colors k fuel (t + 1) used cents
      else
        seedLoop sampler colors k fuel (t + 1)
          (insert (drawIdx sampler colors.length t) used)
          (cents ++ [colors.getD (drawIdx sampler colors.length t) ⟨0, 0, 0⟩])
    else cents

/-- Assignment pass of one k-means round: start from `k` empty clusters and
push every observation onto the cluster of its nearest centroid, in
observation order (`clusters[nearestIdx].push(color)`).
For `k = 0` with nonempty observations the source throws a TypeError here
(`clusters[0].push` on the empty array `Array.from({length: k ≤ 0})`);
this total function is only the `k ≥ 1` region of the source, which is all
the engine ever reaches: `kMeansClusterInt` raises the TypeError before
this point for counts `≤ 0`, and every theorem about bare `kMeansCluster`
or `kMeansWithSampler` carries a `1 ≤ k` hypothesis. -/
def buildClusters (centroids : List RGB) (colors : List RGB) (k : ℕ) :
    List (List RGB) :=
  colors.foldl
    (fun cl c =>
      cl.set (nearestIdx c centroids)
        ((cl.getD (nearestIdx c centroids) []) ++ [c]))
    (List.replicate k [])

/-- Update pass of one k-means round: `for (i = 0; i < k; i++) if
(clusters[i].length > 0) centroids[i] = roundedMean(clusters[i])` — a
centroid with an empty cluster keeps its previous position. -/
def updateCentroids (k : ℕ) (clusters : List (List RGB))
    (centroids : List RGB) : List RGB :=
  (List.range k).foldl
    (fun cs i =>
      if (clusters.getD i []) = [] then cs
      else cs.set i (roundedMeanRGB (clusters.getD i [])))
    centroids

/-- One refinement round of `kMeansCluster`. -/
def kmeansRound (k : ℕ) (colors : List RGB) (centroids : List RGB) :
    List RGB :=
  updateCentroids k (buildClusters centroids colors k) centroids

/-- `kMeansCluster(colors, k, iterations = 10)` with the seeding sampler
abstracted: return `[]` on empty input, the observations verbatim when
`colors.length ≤ k`, otherwise seed by sampling without replacement and run
the fixed refinement rounds. -/
def kMeansWithSampler (sampler : ℕ → ℚ) (fuel : ℕ) (colors : List RGB)
    (k : ℕ) (iterations : ℕ := 10) : List RGB :=
  if colors = [] then []
  else if colors.length ≤ k then colors
  else (kmeansRound k colors)^[iterations] (seedLoop sampler colors k fuel 0 ∅ [])

/-- Batch `kMeansCluster` (`imageProcessor.ts` lines 51-110): deterministic
seeding from its own LCG started at `colors.length`.  The `ambient` argument
models the environment's `Math.random` stream; the batch code never reads it
(the whole content of claim C7). -/
def kMeansCluster (ambient : ℕ → ℚ) (fuel : ℕ) (colors : List RGB) (k : ℕ)
    (iterations : ℕ := 10) : List RGB :=
  kMeansWithSampler (lcgSampler colors.length) fuel colors k iterations

/-- Interactive `kMeansCluster` (`AsciiGenerator.tsx` lines 149-199):
identical except the seeding indices come from successive `Math.random()`
draws, i.e. from the ambient stream. -/
def kMeansClusterInteractive (ambient : ℕ → ℚ) (fuel : ℕ) (colors : List RGB)
    (k : ℕ) (iterations : ℕ := 10) : List RGB :=
  kMeansWithSampler ambient fuel colors k iterations

/-- The batch quantiser as the engine actually invokes it, with the CLI's
integer count: `kMeansCluster(colors, k)` for `k ≤ 0` on a *nonempty*
observation list builds `clusters = Array.from({length: k}) = []` inside
the first refinement round and then executes `clusters[0].push(color)` — a
TypeError that aborts the call (an empty list returns `[]` first, before
the crash).  For `k ≥ 1` it is the ℕ-indexed embedding `kMeansCluster`. -/
def kMeansClusterInt (ambient : ℕ → ℚ) (fuel : ℕ) (colors : List RGB)
    (k : ℤ) (iterations : ℕ := 10) : Except String (List RGB) :=
  if colors ≠ [] ∧ k ≤ 0 then .error "TypeError"
  else .ok (kMeansCluster ambient fuel colors k.toNat iterations)

/-- `findNearestColor(color, palette)`: `nearest = palette[0]`, then a strict
`<` scan over the whole palette.  On an empty palette the source yields
`undefined` (and the subsequent `rgbToCss` would throw); the embedding returns
`none` in that case.  The first loop iteration always replaces the initial
`Infinity` distance with the head's distance, which is what the
head-initialised fold below computes. -/
def findNearestGo (c : RGB) : List RGB → ℚ → RGB → RGB
  | [], _, best => best
  | p :: ps, bd, best =>
    if distSq c p < bd then findNearestGo c ps (distSq c p) p
    else findNearestGo c ps bd best

def findNearestColor (c : RGB) (palette : List RGB) : Option RGB :=
  match palette with
  | [] => none
  | p :: ps => some (findNearestGo c (p :: ps) (distSq c p) p)

/-! ## SSIM and the structure-mode CPU matcher (`AsciiGenerator.tsx`) -/

/-- `c1 = (k1 * L) ** 2` with `k1 = 0.01`, `L = 255` (line 63). -/
def ssimC1 : ℚ := (0.01 * 255) ^ 2

/-- `c2 = (k2 * L) ** 2` with `k2 = 0.03`, `L = 255` (line 64). -/
def ssimC2 : ℚ := (0.03 * 255) ^ 2

/-- The SSIM formula of lines 67-70:
`(2·μ₁·μ₂ + C1)(2·cov + C2) / ((μ₁² + μ₂² + C1)(σ₁² + σ₂² + C2))`. -/
def ssimFormula (m1 m2 v1 v2 cov : ℚ) : ℚ :=
  ((2 * m1 * m2 + ssimC1) * (2 * cov + ssimC2)) /
    ((m1 ^ 2 + m2 ^ 2 + ssimC1) * (v1 + v2 + ssimC2))

/-- Population mean of a sample list (`mean1 /= n`). -/
def listMean (l : List ℚ) : ℚ := l.sum / l.length

/-- Population variance about a given mean (`var1 /= n`). -/
def listVar (l : List ℚ) (m : ℚ) : ℚ :=
  ((l.map (fun x => (x - m) ^ 2)).sum) / l.length

/-- Population covariance about given means; the source divides by
`n = img1.length` (equal to `img2.length` in the branch that uses it). -/
def listCovar (l1 l2 : List ℚ) (m1 m2 : ℚ) : ℚ :=
  ((List.zipWith (fun a b => (a - m1) * (b - m2)) l1 l2).sum) / l1.length

/-- `calculateSSIM(img1, img2)` (`AsciiGenerator.tsx` lines 33-71): returns
`0` on length mismatch or empty input, otherwise population means, variances
and covariance over `n = img1.length` samples and the SSIM formula with
`C1 = (0.01*255)^2`, `C2 = (0.03*255)^2`. -/
def calculateSSIM (img1 img2 : List ℚ) : ℚ :=
  if img1.length ≠ img2.length ∨ img1.length = 0 then 0
  else
    ssimFormula (listMean img1) (listMean img2)
      (listVar img1 (listMean img1)) (listVar img2 (listMean img2))
      (listCovar img1 img2 (listMean img1) (listMean img2))

/-- A pre-rendered glyph template (`interface CharTemplate`). -/
structure CharTemplate where
  char : Char
  data : List ℚ
  width : ℕ
  height : ℕ
deriving DecidableEq, Repr

/-- The CPU structure matcher for one cell (`AsciiGenerator.tsx` lines
473-486): `bestSSIM = -1; bestChar = ' '`, then for each template keep it if
`ssim > bestSSIM` (strict, so the first-encountered maximum wins). -/
def cpuMatchChar (grayscale : List ℚ) (templates : List CharTemplate) : Char :=
  (templates.foldl
    (fun best t =>
      if best.1 < calculateSSIM grayscale t.data then
        (calculateSSIM grayscale t.data, t.char)
      else best)
    ((-1 : ℚ), ' ')).2

/-! ## Character sets and cell geometry -/

inductive CharSetKey | standard | blocks | detailed | simple | binary
deriving DecidableEq, Repr

/-- `CHAR_SETS`, ordered dark to light (identical in both source files).
The `detailed` set is spelled as explicit character literals because it
contains quote-like and brace characters. -/
def CHAR_SETS : CharSetKey → List Char
  | .standard => " .:-=+*#%@".toList
  | .blocks => " ░▒▓█".toList
  | .detailed =>
      [' ', '.', '\x27', '\x60', '^', '\x22', ',', ':', ';', 'I', 'l', '!',
       'i', '>', '<', '~', '+', '_', '-', '?', ']', '[', '\x7d', '\x7b', '1',
       ')', '(', '|', '\\', '/', 't', 'f', 'j', 'r', 'x', 'n', 'u', 'v', 'c',
       'z', 'X', 'Y', 'U', 'J', 'C', 'L', 'Q', '0', 'O', 'Z', 'm', 'w', 'q',
       'p', 'd', 'b', 'k', 'h', 'a', 'o', '*', '#', 'M', 'W', '&', '8', '%',
       'B', '@', '$']
  | .simple => " .-+*#".toList
  | .binary => " █".toList

/-- `Math.ceil(a / b)` for naturals (`b ≥ 1`). -/
def cdiv (a b : ℕ) : ℕ := (a + b - 1) / b

/-- Brightness-mode character selection, shared verbatim by both pipelines
(`imageProcessor.ts` lines 246-248, `AsciiGenerator.tsx` lines 490-492):
`charIdx = Math.floor((brightness / 255) * (chars.length - 1));
char = chars[charIdx]`.  The `' '` default is the `undefined` of an
out-of-range index, unreachable for brightness in `[0, 255]` and a nonempty
ramp. -/
def brightnessChar (chars : List Char) (brightness : ℚ) : Char :=
  chars.getD ((⌊brightness / 255 * ((chars.length - 1 : ℕ) : ℚ)⌋).toNat) ' '

/-- Channel value of the canvas byte array at flat offset `i`
(`pixels[idx]`); canvas bytes are `0..255` naturals read as JS numbers. -/
def pxChan (data : List ℕ) (i : ℕ) : ℚ := (data.getD i 0 : ℕ)

/-- Flat RGBA offsets of the pixels of cell `(r, c)`, in the y-major,
x-minor order of the source's nested sampling loops.  The canvas is exactly
`cols*cellWidth × rows*cellHeight`, so the loop guards `y < canvas.height`,
`x < canvas.width` never truncate a cell. -/
def cellIdxList (cw ch canvasW r c : ℕ) : List ℕ :=
  (List.range ch).flatMap fun y =>
    (List.range cw).map fun x =>
      ((r * ch + y) * canvasW + (c * cw + x)) * 4

/-! ## Batch pipeline (`imageProcessor.ts`) -/

/-- Per-cell aggregates of the batch first pass: mean brightness over all
pixels, rounded mean colour, rounded mean of the dark (`brightness < 128`)
pixels (black when there are none). -/
structure CellDataB where
  brightness : ℚ
  avgColor : RGB
  darkColor : RGB
deriving DecidableEq, Repr

def cellStatsB (data : List ℕ) (canvasW cw ch r c : ℕ) : CellDataB :=
  let idxs := cellIdxList cw ch canvasW r c
  let n : ℚ := idxs.length
  let bright := fun i =>
    getBrightness (pxChan data i) (pxChan data (i + 1)) (pxChan data (i + 2))
  let darks := idxs.filter (fun i => bright i < 128)
  let dc : ℚ := darks.length
  { brightness := (idxs.map bright).sum / n
    avgColor :=
      { r := jsRound ((idxs.map (fun i => pxChan data i)).sum / n)
        g := jsRound ((idxs.map (fun i => pxChan data (i + 1))).sum / n)
        b := jsRound ((idxs.map (fun i => pxChan data (i + 2))).sum / n) }
    darkColor :=
      if darks = [] then ⟨0, 0, 0⟩
      else
        { r := jsRound ((darks.map (fun i => pxChan data i)).sum / dc)
          g := jsRound ((darks.map (fun i => pxChan data (i + 1))).sum / dc)
          b := jsRound ((darks.map (fun i => pxChan data (i + 2))).sum / dc) } }

/-- `ProcessOptions` of the batch generator.  Quantisation counts are
integers: the CLI's `parseInt(next) || 8` passes any nonzero integer
through, including negative ones (`parseInt('-3')` is truthy), and the
engine crashes on counts `≤ 0` — see `kMeansClusterInt`. -/
structure ProcessOptions where
  width : ℕ
  charSet : CharSetKey
  fgQuant : ℤ
  bgQuant : ℤ
  useBgColors : Bool
deriving DecidableEq, Repr

/-- One output character of the batch generator.  The source carries CSS
strings built by `rgbToCss`; the embedding keeps the palette colours
themselves, `none` marking the `undefined` that `findNearestColor` yields on
an empty palette (on which `rgbToCss` would throw). -/
structure AsciiCharB where
  char : Char
  fgColor : Option RGB
  bgColor : Option RGB
deriving DecidableEq, Repr

/-- The batch `processImage` (`imageProcessor.ts` lines 136-263), from the
resampled canvas bytes onward.  `imgW, imgH` are the decoded image's
dimensions (cell geometry is computed from them), `data` the RGBA bytes of
the `cols*cellWidth × rows*cellHeight` canvas after the black fill and the
stretched draw.  A zero width or an empty image makes canvas construction
throw in the source (`Infinity`/zero canvas dimensions), modelled as
`.error`.  The function performs no option *validation*: any positive
quantisation count is accepted, and a count `≤ 0` is not rejected up front
but crashes inside `kMeansCluster` — the grid always has at least one cell,
so `allFgColors` is nonempty and `kMeansClusterInt` raises the TypeError
(the background call is only evaluated when `useBgColors` is set, matching
the source's ternary).  The foreground quantisation runs first, as in the
source, so its TypeError wins when both counts are out of range. -/
def processImage (ambient : ℕ → ℚ) (fuel : ℕ) (imgW imgH : ℕ)
    (data : List ℕ) (opts : ProcessOptions) :
    Except String (List (List AsciiCharB)) :=
  if opts.width = 0 ∨ imgW = 0 ∨ imgH = 0 then .error "invalid canvas size"
  else
    let cw := cdiv imgW opts.width
    let ch := cw * 2
    let cols := opts.width
    let rows := cdiv imgH ch
    let canvasW := cols * cw
    let chars := CHAR_SETS opts.charSet
    let cells : List (List CellDataB) :=
      (List.range rows).map fun r =>
        (List.range cols).map fun c => cellStatsB data canvasW cw ch r c
    let allFgColors := cells.flatten.map (·.avgColor)
    let allBgColors :=
      if opts.useBgColors then cells.flatten.map (·.darkColor) else []
    match kMeansClusterInt ambient fuel allFgColors opts.fgQuant with
    | .error e => .error e
    | .ok fgPalette =>
      match
        (if opts.useBgColors then
          kMeansClusterInt ambient fuel allBgColors opts.bgQuant
        else .ok [⟨0, 0, 0⟩]) with
      | .error e => .error e
      | .ok bgPalette =>
        .ok <| cells.map fun rowCells => rowCells.map fun cd =>
          { char := brightnessChar chars cd.brightness
            fgColor := findNearestColor cd.avgColor fgPalette
            bgColor :=
              if opts.useBgColors then findNearestColor cd.darkColor bgPalette
              else some ⟨0, 0, 0⟩ }

/-! ## Interactive pipeline (`AsciiGenerator.tsx`, `src/unnamed/part_015`) -/

/-- Per-cell aggregates of the interactive first pass (lines 347-431):
alpha-aware statistics, a grayscale sample vector (0 for transparent
pixels), and the transparency flag `avgAlpha < 128`. -/
structure CellDataUI where
  brightness : ℚ
  avgColor : RGB
  darkColor : RGB
  grayscale : List ℚ
  isTransparent : Bool
deriving DecidableEq, Repr

def cellStatsUI (data : List ℕ) (canvasW cw ch r c : ℕ) : CellDataUI :=
  let idxs := cellIdxList cw ch canvasW r c
  let n : ℚ := idxs.length
  let bright := fun i =>
    getBrightness (pxChan data i) (pxChan data (i + 1)) (pxChan data (i + 2))
  let totalAlpha := (idxs.map (fun i => pxChan data (i + 3))).sum
  let opaques := idxs.filter (fun i => 0 < pxChan data (i + 3))
  let oc : ℚ := opaques.length
  let darks := opaques.filter (fun i => bright i < 128)
  let dc : ℚ := darks.length
  { brightness := if opaques = [] then 0 else (opaques.map bright).sum / oc
    avgColor :=
      if opaques = [] then ⟨0, 0, 0⟩
      else
        { r := jsRound ((opaques.map (fun i => pxChan data i)).sum / oc)
          g := jsRound ((opaques.map (fun i => pxChan data (i + 1))).sum / oc)
          b := jsRound ((opaques.map (fun i => pxChan data (i + 2))).sum / oc) }
    darkColor :=
      if darks = [] then ⟨0, 0, 0⟩
      else
        { r := jsRound ((darks.map (fun i => pxChan data i)).sum / dc)
          g := jsRound ((darks.map (fun i => pxChan data (i + 1))).sum / dc)
          b := jsRound ((darks.map (fun i => pxChan data (i + 2))).sum / dc) }
    grayscale :=
      idxs.map (fun i => if 0 < pxChan data (i + 3) then bright i else 0)
    isTransparent := decide (totalAlpha / n < 128) }

/-- Accumulator of the interactive first pass: the row-major cell list and
the two clustering input lists built by conditional `push`es. -/
structure FirstPassAcc where
  cells : List CellDataUI
  allFgColors : List RGB
  allBgColors : List RGB
deriving DecidableEq, Repr

/-- Row-major list of `(row, col)` cell coordinates, the iteration order of
both passes' nested loops. -/
def cellPairs (rows cols : ℕ) : List (ℕ × ℕ) :=
  (List.range rows).flatMap fun r => (List.range cols).map fun c => (r, c)

/-- Body of the interactive first-pass loop for one cell: record the cell;
push `avgColor` (and `darkColor` when background colours are enabled) only
when the cell is not transparent (lines 409-429). -/
def firstPassStep (data : List ℕ) (canvasW cw ch : ℕ) (useBgColors : Bool)
    (acc : FirstPassAcc) (rc : ℕ × ℕ) : FirstPassAcc :=
  let cd := cellStatsUI data canvasW cw ch rc.1 rc.2
  { cells := acc.cells ++ [cd]
    allFgColors :=
      if cd.isTransparent then acc.allFgColors
      else acc.allFgColors ++ [cd.avgColor]
    allBgColors :=
      if cd.isTransparent then acc.allBgColors
      else if useBgColors then acc.allBgColors ++ [cd.darkColor]
      else acc.allBgColors }

/-- The interactive first pass (lines 346-431): visit cells in row-major
order; every cell is recorded, and only non-transparent cells push their
`avgColor` (and, when background colours are enabled, their `darkColor`)
onto the clustering inputs. -/
def firstPassUI (data : List ℕ) (canvasW cw ch rows cols : ℕ)
    (useBgColors : Bool) : FirstPassAcc :=
  (cellPairs rows cols).foldl (firstPassStep data canvasW cw ch useBgColors)
    ⟨[], [], []⟩

/-- `'brightness' | 'structure'` (the `structure` literal is a Lean keyword,
hence the `Mode` suffix on the constructor names). -/
inductive AlgorithmType | brightnessMode | structureMode
deriving DecidableEq, Repr

/-- One output cell of the interactive generator.  A transparent cell is the
sentinel `{char: ' ', fg/bg 'transparent', transparent: true}`; the missing
`transparent` field of ordinary cells is the falsy `false`.  `none` colours
mark the `undefined` a lookup on an empty palette would produce. -/
structure AsciiCharUI where
  char : Char
  fgColor : Option RGB
  bgColor : Option RGB
  transparent : Bool
deriving DecidableEq, Repr

def blankUI : AsciiCharUI := ⟨' ', none, none, true⟩

/-- Outcome of the GPU matcher for one call: `none` — no matcher (probe or
initialisation failed, `gpuMatcherRef.current === null`); `some (.error e)` —
`matcher.match` threw and the `catch` left `gpuResults = null`;
`some (.ok res)` — the dispatched argmax indices.  Only a successful
dispatch yields usable results. -/
def effectiveGpuResults : Option (Except String (List ℕ)) → Option (List ℕ)
  | some (.ok res) => some res
  | _ => none

/-- A default cell for list indexing (unreachable at in-range indices). -/
def dummyCellUI : CellDataUI := ⟨0, ⟨0, 0, 0⟩, ⟨0, 0, 0⟩, [], false⟩

/-- Second-pass body for one cell (lines 450-504): a transparent cell is
emitted as the blank sentinel before any matching; otherwise the character
comes from the GPU results, the CPU SSIM matcher, or the brightness ramp,
and the colours from nearest-palette lookups.  In the GPU branch the source
indexes `STRUCTURE_CHARS`, which is by construction `charTemplates[i].char`
(`buildCharTemplates` maps the characters in order); `|| ' '` catches an
out-of-range index. -/
def secondPassCellUI (chars : List Char) (useStructure : Bool)
    (charTemplates : List CharTemplate) (gpuResults : Option (List ℕ))
    (fgPalette bgPalette : List RGB) (useBgColors : Bool) (cellIdx : ℕ)
    (cd : CellDataUI) : AsciiCharUI :=
  if cd.isTransparent then blankUI
  else
    { char :=
        if useStructure ∧ charTemplates ≠ [] then
          match gpuResults with
          | some res =>
            match res.get? cellIdx with
            | some i => (charTemplates.map (·.char)).getD i ' '
            | none => ' '
          | none =>
            if cd.grayscale ≠ [] then cpuMatchChar cd.grayscale charTemplates
            else ' '
        else brightnessChar chars cd.brightness
      fgColor := findNearestColor cd.avgColor fgPalette
      bgColor :=
        if useBgColors then findNearestColor cd.darkColor bgPalette
        else some ⟨0, 0, 0⟩
      transparent := false }

/-- The interactive `processImage` callback (lines 307-519), from the canvas
bytes onward.  `ambientFg`/`ambientBg` are the `Math.random` draws consumed
by the two quantiser calls; `charTemplates` is the memoised template cache
(its construction calls the external rasteriser); `gpuAttempt` is the GPU
dispatch outcome. -/
def processImageUI (ambientFg ambientBg : ℕ → ℚ) (fuel : ℕ)
    (imgW imgH : ℕ) (data : List ℕ) (textWidth : ℕ) (charSet : CharSetKey)
    (algorithm : AlgorithmType) (colorQuantNum bgQuantNum : ℕ)
    (useBgColors : Bool) (charTemplates : List CharTemplate)
    (gpuAttempt : Option (Except String (List ℕ))) :
    List (List AsciiCharUI) :=
  let cw := cdiv imgW textWidth
  let ch := cw * 2
  let cols := textWidth
  let rows := cdiv imgH ch
  let canvasW := cols * cw
  let chars := CHAR_SETS charSet
  let useStructure : Bool := algorithm = AlgorithmType.structureMode
  let fp := firstPassUI data canvasW cw ch rows cols useBgColors
  let fgPalette :=
    kMeansClusterInteractive ambientFg fuel fp.allFgColors colorQuantNum
  let bgPalette :=
    if useBgColors then
      kMeansClusterInteractive ambientBg fuel fp.allBgColors bgQuantNum
    else [⟨0, 0, 0⟩]
  let gpuResults :=
    if useStructure then effectiveGpuResults gpuAttempt else none
  (List.range rows).map fun r =>
    (List.range cols).map fun c =>
      secondPassCellUI chars useStructure charTemplates gpuResults fgPalette
        bgPalette useBgColors (r * cols + c)
        (fp.cells.getD (r * cols + c) dummyCellUI)

/-! ## Batch CLI argument handling (`index.ts`, `parseArgs`) -/

/-- `config.fgQuant = parseInt(next) || 8` (and `bgQuant … || 4`,
`index.ts` lines 84-90): `none` models a missing or non-numeric token
(`parseInt` → `NaN`), and a parsed `0` is falsy — both silently become the
default; any other value, in range or not, is passed through unvalidated. -/
def parseQuantArg (next : Option ℤ) (dflt : ℤ) : ℤ :=
  match next with
  | none => dflt
  | some v => if v = 0 then dflt else v

/-- `--widths`: `next.split(',').map(w => parseInt(w.trim())).filter(w => w > 0)`
(`index.ts` line 96): malformed (`NaN`, modelled `none`) and non-positive
entries are silently dropped, never rejected. -/
def parseWidthsArg (entries : List (Option ℤ)) : List ℤ :=
  entries.filterMap fun o => o.bind fun v => if 0 < v then some v else none

/-! ## Spec-side reference definitions

These definitions follow the *wording* of `spec.md` (§4.2, §4.3) rather than
the source, for the refinement claims C3 and C6.  They share with the source
embedding only the pieces the spec does not itself pin down (the identity of
the sampling PRNG, and first-strict-minimum tie-breaking of the nearest
centroid, which the spec leaves unspecified). -/

/-- Modelled from the spec (§4.2): the observations assigned to centroid `i`
are exactly those whose nearest centroid (Euclidean RGB distance) is `i`. -/
def specAssigned (colors : List RGB) (centroids : List RGB) (i : ℕ) :
    List RGB :=
  colors.filter fun c => nearestIdx c centroids = i

/-- Modelled from the spec (§4.2): one refinement round "assigning each
observation to its nearest centroid by Euclidean RGB distance and recomputing
centroids as the mean of assigned observations (a centroid with zero
assignments keeps its previous position)".  The mean function is a
parameter: `exactMeanRGB` is the spec's literal "mean", `roundedMeanRGB` the
source's `Math.round`ed update. -/
def specRound (mean : List RGB → RGB) (colors : List RGB)
    (centroids : List RGB) : List RGB :=
  (List.range centroids.length).map fun i =>
    let assigned := specAssigned colors centroids i
    if assigned = [] then centroids.getD i ⟨0, 0, 0⟩ else mean assigned

/-- Modelled from the spec (§4.2): if the observation count is at most `k`
return the observations verbatim, otherwise seed `k` centroids by sampling
without replacement (the spec fixes only that batch seeding is deterministic;
the sampler is a parameter) and run a fixed 10 refinement rounds. -/
def specKMeans (mean : List RGB → RGB) (sampler : ℕ → ℚ) (fuel : ℕ)
    (colors : List RGB) (k : ℕ) : List RGB :=
  if colors = [] then []
  else if colors.length ≤ k then colors
  else (specRound mean colors)^[10] (seedLoop sampler colors k fuel 0 ∅ [])

/-- Modelled from the spec (§4.3, structure mode): SSIM from population
statistics over `n` samples accessed positionally — mean `μ`, variance `σ²`,
covariance — with constants `C1 = (0.01·255)²`, `C2 = (0.03·255)²` and
`SSIM = (2μ_c μ_t + C1)(2·cov + C2) / ((μ_c² + μ_t² + C1)(σ_c² + σ_t² + C2))`. -/
def specSSIM (n : ℕ) (f g : ℕ → ℚ) : ℚ :=
  ssimFormula ((∑ i ∈ Finset.range n, f i) / (n : ℚ))
    ((∑ i ∈ Finset.range n, g i) / (n : ℚ))
    ((∑ i ∈ Finset.range n, (f i - (∑ i ∈ Finset.range n, f i) / (n : ℚ)) ^ 2) / (n : ℚ))
    ((∑ i ∈ Finset.range n, (g i - (∑ i ∈ Finset.range n, g i) / (n : ℚ)) ^ 2) / (n : ℚ))
    ((∑ i ∈ Finset.range n,
      (f i - (∑ i ∈ Finset.range n, f i) / (n : ℚ)) *
        (g i - (∑ i ∈ Finset.range n, g i) / (n : ℚ))) / (n : ℚ))

/-! ## Derived views used in theorem statements -/

/-- Row-major list of the interactive per-cell aggregates. -/
def cellListUI (data : List ℕ) (canvasW cw ch rows cols : ℕ) :
    List CellDataUI :=
  (cellPairs rows cols).map fun rc => cellStatsUI data canvasW cw ch rc.1 rc.2

/-- The 1×1 opaque-red source of spec Example 1, stretched onto the 1×2
canvas that `textWidth = 1` produces (resampling a solid 1×1 image yields a
solid canvas). -/
def redBuf : List ℕ := [255, 0, 0, 255, 255, 0, 0, 255]

/-- Decidable equality on `Except`, for evaluating concrete pipeline runs. -/
instance {ε α : Type} [DecidableEq ε] [DecidableEq α] :
    DecidableEq (Except ε α) := fun x y =>
  match x, y with
  | .ok a, .ok b => decidable_of_iff (a = b) (by simp)
  | .error a, .error b => decidable_of_iff (a = b) (by simp)
  | .ok _, .error _ => isFalse (by simp)
  | .error _, .ok _ => isFalse (by simp)

/-! # Lemmas: lengths through the quantiser -/

lemma seedLoop_length_le (sampler : ℕ → ℚ) (colors : List RGB) (k : ℕ) :
    ∀ (fuel t : ℕ) (used : Finset ℕ) (cents : List RGB),
      cents.length ≤ k →
      (seedLoop sampler colors k fuel t used cents).length ≤ k := by
  intro fuel
  induction fuel with
  | zero => intro t used cents h; simpa [seedLoop] using h
  | succ n ih =>
    intro t used cents h
    simp only [seedLoop]
    split_ifs with h1 h2
    · exact ih _ _ _ h
    · exact ih _ _ _
        (by simp only [List.length_append, List.length_cons, List.length_nil]; omega)
    · exact h

lemma seedLoop_length_ge (sampler : ℕ → ℚ) (colors : List RGB) (k : ℕ) :
    ∀ (fuel t : ℕ) (used : Finset ℕ) (cents : List RGB),
      cents.length ≤ (seedLoop sampler colors k fuel t used cents).length := by
  intro fuel
  induction fuel with
  | zero => intro t used cents; simp [seedLoop]
  | succ n ih =>
    intro t used cents
    simp only [seedLoop]
    split_ifs with h1 h2
    · exact ih _ _ _
    · exact le_trans (by simp) (ih _ _ _)
    · exact le_refl _

lemma updateCentroids_length (k : ℕ) (clusters : List (List RGB))
    (cents : List RGB) :
    (updateCentroids k clusters cents).length = cents.length := by
  unfold updateCentroids
  generalize List.range k = l
  induction l generalizing cents with
  | nil => rfl
  | cons i l ih =>
    simp only [List.foldl_cons]
    rw [ih]
    split <;> simp [List.length_set]

lemma kmeansRound_length (k : ℕ) (colors cents : List RGB) :
    (kmeansRound k colors cents).length = cents.length :=
  updateCentroids_length _ _ _

lemma kmeansRound_iterate_length (k : ℕ) (colors : List RGB) (m : ℕ) :
    ∀ cents, ((kmeansRound k colors)^[m] cents).length = cents.length := by
  induction m with
  | zero => intro cents; simp
  | succ n ih =>
    intro cents
    rw [Function.iterate_succ_apply, ih, kmeansRound_length]

lemma kMeansWithSampler_ne_nil (sampler : ℕ → ℚ) (fuel : ℕ)
    (colors : List RGB) (k it : ℕ) (hfuel : 1 ≤ fuel) (hk : 1 ≤ k)
    (hcol : colors ≠ []) :
    kMeansWithSampler sampler fuel colors k it ≠ [] := by
  have hlen : 1 ≤ (kMeansWithSampler sampler fuel colors k it).length := by
    unfold kMeansWithSampler
    split_ifs with h0 h1
    · exact absurd h0 hcol
    · have := List.length_pos.mpr hcol; omega
    · rw [kmeansRound_iterate_length]
      obtain ⟨n, rfl⟩ := Nat.exists_eq_add_of_le hfuel
      simp only [Nat.add_comm 1 n, seedLoop]
      rw [if_pos ⟨by simpa using hk, by simpa using List.length_pos.mpr hcol⟩,
        if_neg (by simp)]
      calc (1 : ℕ) = ([] ++ [colors.getD (drawIdx sampler colors.length 0) ⟨0,0,0⟩]).length := by simp
        _ ≤ _ := seedLoop_length_ge _ _ _ _ _ _ _
  intro hnil
  rw [hnil] at hlen
  simp at hlen

lemma findNearestColor_isSome (c : RGB) (palette : List RGB)
    (h : palette ≠ []) : (findNearestColor c palette).isSome = true := by
  cases palette with
  | nil => exact absurd rfl h
  | cons p ps => rfl

lemma kMeansClusterInt_pos (ambient : ℕ → ℚ) (fuel : ℕ) (colors : List RGB)
    (k : ℤ) (it : ℕ) (hk : 1 ≤ k) :
    kMeansClusterInt ambient fuel colors k it =
      .ok (kMeansCluster ambient fuel colors k.toNat it) := by
  unfold kMeansClusterInt
  rw [if_neg (fun h => absurd h.2 (by omega))]

lemma kMeansClusterInt_nonpos (ambient : ℕ → ℚ) (fuel : ℕ) (colors : List RGB)
    (k : ℤ) (it : ℕ) (hc : colors ≠ []) (hk : k ≤ 0) :
    kMeansClusterInt ambient fuel colors k it = .error "TypeError" := by
  unfold kMeansClusterInt
  rw [if_pos ⟨hc, hk⟩]

lemma one_le_cdiv (a b : ℕ) (ha : 1 ≤ a) (hb : 1 ≤ b) : 1 ≤ cdiv a b := by
  unfold cdiv
  rw [Nat.le_div_iff_mul_le hb]
  omega

lemma grid_flatten_length {α β : Type} (f : ℕ → ℕ → α) (g : α → β)
    (rows cols : ℕ) :
    ((((List.range rows).map fun r =>
        (List.range cols).map fun c => f r c).flatten).map g).length =
      rows * cols := by
  simp only [List.length_map, List.length_flatten, List.map_map,
    Function.comp_def, List.length_range, List.map_const', List.sum_replicate,
    smul_eq_mul]

lemma gridMap_ne_nil {α β : Type} (f : ℕ → ℕ → α) (g : α → β)
    (rows cols : ℕ) (hr : 1 ≤ rows) (hc : 1 ≤ cols) :
    (((List.range rows).map fun r =>
        (List.range cols).map fun c => f r c).flatten).map g ≠ [] := by
  intro h
  have hlen := grid_flatten_length f g rows cols
  rw [h] at hlen
  simp only [List.length_nil] at hlen
  exact absurd hlen.symm (Nat.mul_pos hr hc).ne'

/-! # Lemmas: the seeding loop draws from a 31-bit state space

The centroid-seeding indices are a deterministic function of the LCG state,
and every state lies in `[0, 2^31)` (the `& 0x7fffffff` mask) — a bound the
binary64 evaluation of the source shares, whatever the rounding of the
oversized products, so the cardinality facts below transfer to the running
program.  Hence at most `2^31` distinct indices can ever be drawn, and the
number of collected centroids can never exceed `2^31`. -/

lemma lcgStep_lt (s : ℕ) : lcgStep s < 2 ^ 31 :=
  Nat.mod_lt _ (by norm_num)

lemma lcgState_lt (seed t : ℕ) : lcgStep^[t + 1] seed < 2 ^ 31 := by
  rw [Function.iterate_succ_apply']
  exact lcgStep_lt _

lemma drawIdx_lcg_mem (seed n t : ℕ) :
    drawIdx (lcgSampler seed) n t ∈
      Finset.image (fun s : ℕ => (⌊(s : ℚ) / 0x7fffffff * (n : ℚ)⌋).toNat)
        (Finset.range (2 ^ 31)) := by
  simp only [drawIdx, lcgSampler]
  exact Finset.mem_image_of_mem _ (Finset.mem_range.mpr (lcgState_lt seed t))

lemma seedLoop_length_le_card (sampler : ℕ → ℚ) (colors : List RGB) (k : ℕ)
    (S : Finset ℕ) (hS : ∀ t, drawIdx sampler colors.length t ∈ S) :
    ∀ (fuel t : ℕ) (used : Finset ℕ) (cents : List RGB),
      cents.length = used.card → used ⊆ S →
      (seedLoop sampler colors k fuel t used cents).length ≤ S.card := by
  intro fuel
  induction fuel with
  | zero =>
    intro t used cents hlen hsub
    simp only [seedLoop]
    rw [hlen]
    exact Finset.card_le_card hsub
  | succ n ih =>
    intro t used cents hlen hsub
    simp only [seedLoop]
    split_ifs with h1 h2
    · exact ih _ _ _ hlen hsub
    · refine ih _ _ _ ?_ ?_
      · rw [List.length_append, List.length_cons, List.length_nil,
          Finset.card_insert_of_not_mem h2, hlen]
      · exact Finset.insert_subset_iff.mpr ⟨hS t, hsub⟩
    · rw [hlen]
      exact Finset.card_le_card hsub

lemma lcg_draw_card_le (n : ℕ) :
    (Finset.image (fun s : ℕ => (⌊(s : ℚ) / 0x7fffffff * (n : ℚ)⌋).toNat)
      (Finset.range (2 ^ 31))).card ≤ 2 ^ 31 :=
  le_trans Finset.card_image_le (by rw [Finset.card_range])

lemma seedLoop_lcg_card_bound (seed : ℕ) (colors : List RGB) (k fuel : ℕ) :
    (seedLoop (lcgSampler seed) colors k fuel 0 ∅ []).length ≤ 2 ^ 31 := by
  refine le_trans
    (seedLoop_length_le_card (lcgSampler seed) colors k _
      (fun t => drawIdx_lcg_mem seed colors.length t) fuel 0 ∅ [] (by simp)
      (Finset.empty_subset _))
    (lcg_draw_card_le colors.length)

/-! # Claim C2 -/

/-- C2, counterexample.  The claim asserts that whenever the number of
distinct observed colours is at most the requested count `k`, the palette
size equals that distinct count.  Two identical observations with `k = 3`
are returned verbatim: the palette has 2 entries while only 1 distinct
colour was observed. -/
theorem c2_counterexample :
    (kMeansCluster (fun _ => 0) 1 [⟨255, 0, 0⟩, ⟨255, 0, 0⟩] 3).length ≠
      ([(⟨255, 0, 0⟩ : RGB), ⟨255, 0, 0⟩].dedup).length ∧
    ([(⟨255, 0, 0⟩ : RGB), ⟨255, 0, 0⟩].dedup).length ≤ 3 := by
  constructor <;> decide

/-- C2, amended: for every sampler (covering both the batch LCG and the
interactive `Math.random` seeding), every loop-exit state and every `k ≥ 1`,
the returned palette has at most `k` entries; and whenever the *observation
count* is at most `k` the palette is the observation list itself — its size
is the observation count, which exceeds the distinct count when duplicate
colours were observed. -/
theorem c2_palette_bound (sampler : ℕ → ℚ) (fuel : ℕ) (colors : List RGB)
    (k it : ℕ) (hk : 1 ≤ k) :
    (kMeansWithSampler sampler fuel colors k it).length ≤ k ∧
    (colors.length ≤ k → kMeansWithSampler sampler fuel colors k it = colors) := by
  unfold kMeansWithSampler
  split_ifs with h0 h1
  · exact ⟨by simp, fun _ => h0.symm⟩
  · exact ⟨h1, fun _ => rfl⟩
  · constructor
    · rw [kmeansRound_iterate_length]
      exact seedLoop_length_le _ _ _ _ _ _ _ (by simp)
    · intro hle; exact absurd hle h1

/-- Witness for `c2_palette_bound` at a concrete input. -/
theorem c2_palette_bound_witness :
    1 ≤ 3 ∧
    ((kMeansWithSampler (fun _ => 0) 1 [⟨255, 0, 0⟩, ⟨255, 0, 0⟩] 3 10).length ≤ 3 ∧
      (([(⟨255, 0, 0⟩ : RGB), ⟨255, 0, 0⟩].length ≤ 3 →
        kMeansWithSampler (fun _ => 0) 1 [⟨255, 0, 0⟩, ⟨255, 0, 0⟩] 3 10 =
          [⟨255, 0, 0⟩, ⟨255, 0, 0⟩]))) :=
  ⟨by decide, c2_palette_bound (fun _ => 0) 1 [⟨255, 0, 0⟩, ⟨255, 0, 0⟩] 3 10 (by decide)⟩

/-! # Claim C7 -/

/-- C7: the batch (CPU-mode) path is deterministic — its output does not
depend on the ambient `Math.random` stream, because the centroid seeding
draws from the LCG seeded by the observation count
(`seed = colors.length`), never from the environment.  Two runs differing
only in ambient randomness produce identical output. -/
theorem c7_batch_determinism (ambient1 ambient2 : ℕ → ℚ) (fuel : ℕ)
    (imgW imgH : ℕ) (data : List ℕ) (opts : ProcessOptions) :
    processImage ambient1 fuel imgW imgH data opts =
      processImage ambient2 fuel imgW imgH data opts := rfl

/-! # Claim C8 -/

/-- C8: when the GPU dispatch fails (`matcher.match` throws, the `catch`
leaves `gpuResults = null`), the generation call still completes and its
entire output equals that of the CPU-matcher run (`gpuAttempt = none`, the
state after an initialisation failure) — the failure is never surfaced in
the result.  (The `console.warn` log is a side effect outside the value
model.) -/
theorem c8_gpu_failure_cpu_fallback (ambientFg ambientBg : ℕ → ℚ)
    (fuel imgW imgH : ℕ) (data : List ℕ) (textWidth : ℕ)
    (charSet : CharSetKey) (algorithm : AlgorithmType) (kf kb : ℕ)
    (useBg : Bool) (templates : List CharTemplate) (e : String) :
    processImageUI ambientFg ambientBg fuel imgW imgH data textWidth charSet
        algorithm kf kb useBg templates (some (.error e)) =
      processImageUI ambientFg ambientBg fuel imgW imgH data textWidth charSet
        algorithm kf kb useBg templates none := rfl

/-! # Claim C1 -/

/-- C1, counterexample.  The claim asserts every invalid option is rejected
with a configuration error and never replaced by a default.  The batch CLI
replaces a malformed `--fg-quant` token (`parseInt` → `NaN`) by the default
8, and the engine accepts the out-of-range `fgQuant = 99` and completes
normally on a 1×1 image. -/
theorem c1_counterexample :
    parseQuantArg none 8 = 8 ∧
    (processImage (fun _ => 0) 1 1 1 redBuf
        { width := 1, charSet := .standard, fgQuant := 99, bgQuant := 4,
          useBgColors := false }).isOk = true := by
  constructor
  · rfl
  · decide

/-- C1, amended: the engine performs no option validation.  For every option
record with a positive width on a nonempty image and positive quantisation
counts it completes normally (`.ok`) whatever the counts' magnitude; a
non-positive foreground count is not rejected with a configuration error
either — it crashes the quantiser with a TypeError (negative counts are
reachable from the CLI, which passes any nonzero `parseInt` value through);
the batch CLI substitutes the default for a malformed or zero quantisation
count and silently drops non-positive widths from `--widths`. -/
theorem c1_no_option_validation :
    (∀ (ambient : ℕ → ℚ) (fuel imgW imgH : ℕ) (data : List ℕ)
        (opts : ProcessOptions), 1 ≤ opts.width → 1 ≤ imgW → 1 ≤ imgH →
        1 ≤ opts.fgQuant → (opts.useBgColors = true → 1 ≤ opts.bgQuant) →
        (processImage ambient fuel imgW imgH data opts).isOk = true) ∧
    (∀ (ambient : ℕ → ℚ) (fuel imgW imgH : ℕ) (data : List ℕ)
        (opts : ProcessOptions), 1 ≤ opts.width → 1 ≤ imgW → 1 ≤ imgH →
        opts.fgQuant ≤ 0 →
        processImage ambient fuel imgW imgH data opts = .error "TypeError") ∧
    (∀ d : ℤ, parseQuantArg none d = d ∧ parseQuantArg (some 0) d = d) ∧
    parseQuantArg (some (-3)) 8 = -3 ∧
    parseWidthsArg [some (-3), some 0, none, some 40] = [40] := by
  refine ⟨?_, ?_, ?_, ?_, ?_⟩
  · intro ambient fuel imgW imgH data opts hw hW hH hfg hbg
    simp only [processImage]
    rw [if_neg (by omega)]
    rw [kMeansClusterInt_pos _ _ _ _ _ hfg]
    by_cases hb : opts.useBgColors = true
    · rw [if_pos hb, kMeansClusterInt_pos _ _ _ _ _ (hbg hb)]
      rfl
    · rw [if_neg hb]
      rfl
  · intro ambient fuel imgW imgH data opts hw hW hH hq
    have hcw : 1 ≤ cdiv imgW opts.width := one_le_cdiv _ _ hW hw
    have hne : (((List.range (cdiv imgH (cdiv imgW opts.width * 2))).map fun r =>
        (List.range opts.width).map fun c =>
          cellStatsB data (opts.width * cdiv imgW opts.width)
            (cdiv imgW opts.width) (cdiv imgW opts.width * 2) r c).flatten).map
          (fun cd => cd.avgColor) ≠ [] :=
      gridMap_ne_nil _ _ _ _ (one_le_cdiv _ _ hH (by omega)) hw
    simp only [processImage]
    rw [if_neg (by omega)]
    rw [kMeansClusterInt_nonpos _ _ _ _ _ hne hq]
  · intro d; exact ⟨rfl, rfl⟩
  · rfl
  · decide

/-- Witness for `c1_no_option_validation` at concrete inputs: both counts far
out of range complete normally, and a negative foreground count raises the
TypeError. -/
theorem c1_no_option_validation_witness :
    (((1 : ℕ) ≤ 1 ∧ (1 : ℤ) ≤ 99 ∧ (1 : ℤ) ≤ 77) ∧
      (processImage (fun _ => 0) 3 1 1 redBuf
          { width := 1, charSet := .standard, fgQuant := 99, bgQuant := 77,
            useBgColors := true }).isOk = true) ∧
    ((-3 : ℤ) ≤ 0 ∧
      processImage (fun _ => 0) 3 1 1 redBuf
          { width := 1, charSet := .standard, fgQuant := -3, bgQuant := 4,
            useBgColors := false } = .error "TypeError") :=
  ⟨⟨⟨by decide, by decide, by decide⟩,
    c1_no_option_validation.1 (fun _ => 0) 3 1 1 redBuf
      { width := 1, charSet := .standard, fgQuant := 99, bgQuant := 77,
        useBgColors := true }
      (by decide) (by decide) (by decide) (by decide) (fun _ => by decide)⟩,
   ⟨by decide,
    c1_no_option_validation.2.1 (fun _ => 0) 3 1 1 redBuf
      { width := 1, charSet := .standard, fgQuant := -3, bgQuant := 4,
        useBgColors := false }
      (by decide) (by decide) (by decide) (by decide)⟩⟩

/-! # Claim C10 -/

/-- C10, counterexample.  The claim asserts the centroid-seeding loop
terminates for every input with `0 < k <` observation count — "the LCG
eventually yields k distinct indices".  At `k = 2^31 + 1` with `2^31 + 2`
observations (a valid input: `0 < k < colors.length`) it cannot: every
drawn index is a function of the masked LCG state, of which there are at
most `2^31`, so no amount of fuel ever collects `k` distinct indices and
the `while` loop runs forever.  The argument uses only the state bound
`< 2^31`, which the binary64 evaluation of the source shares (the
`& 0x7fffffff` mask lands in `[0, 2^31)` whatever the rounding of the
oversized products), so the nontermination holds for the running program
as well. -/
theorem c10_counterexample :
    0 < 2 ^ 31 + 1 ∧
    2 ^ 31 + 1 < (List.replicate (2 ^ 31 + 2) (⟨0, 0, 0⟩ : RGB)).length ∧
    ¬ ∃ fuel : ℕ,
        2 ^ 31 + 1 ≤
          (seedLoop
              (lcgSampler (List.replicate (2 ^ 31 + 2) (⟨0, 0, 0⟩ : RGB)).length)
              (List.replicate (2 ^ 31 + 2) (⟨0, 0, 0⟩ : RGB))
              (2 ^ 31 + 1) fuel 0 ∅ []).length := by
  refine ⟨by norm_num, by simp only [List.length_replicate]; norm_num, ?_⟩
  rintro ⟨fuel, hf⟩
  have h := seedLoop_lcg_card_bound
    (List.replicate (2 ^ 31 + 2) (⟨0, 0, 0⟩ : RGB)).length
    (List.replicate (2 ^ 31 + 2) (⟨0, 0, 0⟩ : RGB)) (2 ^ 31 + 1) fuel
  exact absurd (le_trans hf h) (by norm_num)

/-- C10, amended: the seeding loop does *not* terminate for every input with
`0 < k <` observation count.  In every exit state, for every seed and every
amount of fuel, the collected centroid list has at most `2^31` entries —
the drawn indices are a function of the 31-bit masked LCG state — so for
any requested `k > 2^31` the loop never satisfies its exit condition and
runs forever.  (For `k ≤ 2^31` termination depends on the binary64 orbit of
the seed update and is not settled here.) -/
theorem c10_seeding_draw_bound (seed : ℕ) (colors : List RGB) (k fuel : ℕ) :
    (seedLoop (lcgSampler seed) colors k fuel 0 ∅ []).length ≤ 2 ^ 31 ∧
    (2 ^ 31 < k →
      (seedLoop (lcgSampler seed) colors k fuel 0 ∅ []).length < k) :=
  ⟨seedLoop_lcg_card_bound seed colors k fuel,
    fun hk => lt_of_le_of_lt (seedLoop_lcg_card_bound seed colors k fuel) hk⟩

/-- Witness for `c10_seeding_draw_bound` at a concrete seed, colour list,
`k = 2^31 + 1` and fuel. -/
theorem c10_seeding_draw_bound_witness :
    2 ^ 31 < 2 ^ 31 + 1 ∧
    (seedLoop (lcgSampler 3) [⟨0, 0, 0⟩] (2 ^ 31 + 1) 5 0 ∅ []).length <
      2 ^ 31 + 1 :=
  ⟨by decide, (c10_seeding_draw_bound 3 [⟨0, 0, 0⟩] (2 ^ 31 + 1) 5).2 (by decide)⟩

/-! # Claim C5 -/

/-- C5, counterexample.  The claim's concrete example asserts that the 1×1
opaque-red source at `textWidth = 1` with the standard ramp selects `'.'`.
The computed index is indeed 2, but entry 2 of `" .:-=+*#%@"` is `':'`
(entry 1 is `'.'`): the engine emits `':'`. -/
theorem c5_counterexample :
    processImage (fun _ => 0) 1 1 1 redBuf
        { width := 1, charSet := .standard, fgQuant := 8, bgQuant := 4,
          useBgColors := false } =
      .ok [[{ char := ':', fgColor := some ⟨255, 0, 0⟩,
              bgColor := some ⟨0, 0, 0⟩ }]] ∧
    ':' ≠ '.' := by
  constructor
  · norm_num [processImage, cellStatsB, cellIdxList, pxChan, getBrightness,
      redBuf, List.range_succ, cdiv, CHAR_SETS, brightnessChar, jsRound,
      kMeansClusterInt, kMeansCluster, kMeansWithSampler, findNearestColor,
      findNearestGo, distSq]
    decide
  · decide

/-- C5, amended: in brightness mode, for every ramp of length `L ≥ 1` and
every mean brightness `b ∈ [0, 255]`, the selected character is the ramp
entry at index `⌊b/255 · (L−1)⌋` (the index is in range); in particular the
1×1 opaque-red source with `textWidth = 1` has cell brightness
`0.299·255 = 76.245`, index `⌊76.245/255 · 9⌋ = 2`, and selects entry 2 of
`" .:-=+*#%@"`, which is the character `':'`. -/
theorem c5_brightness_index (chars : List Char) (b : ℚ) (hb0 : 0 ≤ b)
    (hb : b ≤ 255) (hL : 1 ≤ chars.length) :
    (∃ h : (⌊b / 255 * ((chars.length - 1 : ℕ) : ℚ)⌋).toNat < chars.length,
      brightnessChar chars b =
        chars.get ⟨(⌊b / 255 * ((chars.length - 1 : ℕ) : ℚ)⌋).toNat, h⟩) ∧
    (cellStatsB redBuf 1 1 2 0 0).brightness = 76.245 ∧
    (⌊(cellStatsB redBuf 1 1 2 0 0).brightness / 255 * ((9 : ℕ) : ℚ)⌋).toNat = 2 ∧
    brightnessChar (CHAR_SETS .standard)
      (cellStatsB redBuf 1 1 2 0 0).brightness = ':' := by
  refine ⟨?_,
    by norm_num [cellStatsB, cellIdxList, pxChan, getBrightness, redBuf,
      List.range_succ],
    by norm_num [cellStatsB, cellIdxList, pxChan, getBrightness, redBuf,
        List.range_succ]
       decide,
    by norm_num [cellStatsB, cellIdxList, pxChan, getBrightness, redBuf,
        List.range_succ, brightnessChar, CHAR_SETS]
       decide⟩
  have hdiv : b / 255 ≤ 1 := by
    rw [div_le_one (by norm_num)]
    exact hb
  have hc0 : (0 : ℚ) ≤ ((chars.length - 1 : ℕ) : ℚ) := Nat.cast_nonneg _
  have hx : b / 255 * ((chars.length - 1 : ℕ) : ℚ) ≤ ((chars.length - 1 : ℕ) : ℚ) :=
    mul_le_of_le_one_left hc0 hdiv
  have hfl : ⌊b / 255 * ((chars.length - 1 : ℕ) : ℚ)⌋ ≤ ((chars.length - 1 : ℕ) : ℤ) := by
    calc ⌊b / 255 * ((chars.length - 1 : ℕ) : ℚ)⌋
        ≤ ⌊((chars.length - 1 : ℕ) : ℚ)⌋ := Int.floor_le_floor hx
      _ = ((chars.length - 1 : ℕ) : ℤ) := Int.floor_natCast _
  have hlt : (⌊b / 255 * ((chars.length - 1 : ℕ) : ℚ)⌋).toNat < chars.length := by
    have h2 := Int.toNat_le_toNat hfl
    rw [Int.toNat_natCast] at h2
    omega
  refine ⟨hlt, ?_⟩
  rw [brightnessChar, List.getD_eq_getElem _ _ hlt]
  rfl

/-- Witness for `c5_brightness_index` at the red example's brightness and
the standard ramp. -/
theorem c5_brightness_index_witness :
    ((0 : ℚ) ≤ 76.245 ∧ (76.245 : ℚ) ≤ 255 ∧ 1 ≤ (CHAR_SETS .standard).length) ∧
    (∃ h : (⌊(76.245 : ℚ) / 255 *
        (((CHAR_SETS .standard).length - 1 : ℕ) : ℚ)⌋).toNat <
        (CHAR_SETS .standard).length,
      brightnessChar (CHAR_SETS .standard) 76.245 =
        (CHAR_SETS .standard).get
          ⟨(⌊(76.245 : ℚ) / 255 *
            (((CHAR_SETS .standard).length - 1 : ℕ) : ℚ)⌋).toNat, h⟩) :=
  ⟨⟨by norm_num, by norm_num, by decide⟩,
    (c5_brightness_index (CHAR_SETS .standard) 76.245 (by norm_num) (by norm_num)
      (by decide)).1⟩

/-! # Lemmas: row-major indexing and the first pass -/

lemma range_map_getD {α : Type} (f : ℕ → α) (n i : ℕ) (h : i < n) (d : α) :
    ((List.range n).map f).getD i d = f i := by
  have hl : i < ((List.range n).map f).length := by simpa
  rw [List.getD_eq_getElem _ _ hl]
  simp

lemma map_getD_of_lt {α β : Type} (l : List α) (f : α → β) (i : ℕ)
    (h : i < l.length) (d : β) (e : α) :
    (l.map f).getD i d = f (l.getD i e) := by
  have hl : i < (l.map f).length := by simpa
  rw [List.getD_eq_getElem _ _ hl, List.getD_eq_getElem _ _ h]
  simp

lemma rc_index_lt (R C r c : ℕ) (hr : r < R) (hc : c < C) :
    r * C + c < R * C :=
  calc r * C + c < r * C + C := Nat.add_lt_add_left hc _
    _ = (r + 1) * C := by ring
    _ ≤ R * C := Nat.mul_le_mul_right C hr

lemma cellPairs_length (rows cols : ℕ) :
    (cellPairs rows cols).length = rows * cols := by
  unfold cellPairs
  simp only [List.length_flatMap, Function.comp_def, List.length_map,
    List.length_range, List.map_const', List.sum_replicate, smul_eq_mul]

lemma cellPairs_succ (n cols : ℕ) :
    cellPairs (n + 1) cols =
      cellPairs n cols ++ (List.range cols).map fun c => (n, c) := by
  unfold cellPairs
  rw [List.range_succ, List.flatMap_append]
  simp

lemma cellPairs_getD (cols : ℕ) (d : ℕ × ℕ) :
    ∀ rows r c, r < rows → c < cols →
      (cellPairs rows cols).getD (r * cols + c) d = (r, c) := by
  intro rows
  induction rows with
  | zero => intro r c hr _; exact absurd hr (Nat.not_lt_zero r)
  | succ n ih =>
    intro r c hr hc
    rw [cellPairs_succ]
    rcases Nat.lt_or_ge r n with h | h
    · rw [List.getD_append _ _ _ _
        (by rw [cellPairs_length]; exact rc_index_lt n cols r c h hc)]
      exact ih r c h hc
    · have hrn : r = n := by omega
      subst hrn
      rw [List.getD_append_right _ _ _ _
        (by rw [cellPairs_length]; exact Nat.le_add_right _ _)]
      rw [cellPairs_length]
      have h2 : r * cols + c - r * cols = c := by omega
      rw [h2]
      exact range_map_getD _ _ _ hc _

lemma firstPass_fold (data : List ℕ) (canvasW cw ch : ℕ) (useBg : Bool) :
    ∀ (l : List (ℕ × ℕ)) (acc : FirstPassAcc),
      l.foldl (firstPassStep data canvasW cw ch useBg) acc =
        { cells := acc.cells ++
            l.map (fun rc => cellStatsUI data canvasW cw ch rc.1 rc.2)
          allFgColors := acc.allFgColors ++
            ((l.map (fun rc => cellStatsUI data canvasW cw ch rc.1 rc.2)).filter
              (fun cd => !cd.isTransparent)).map (fun cd => cd.avgColor)
          allBgColors := acc.allBgColors ++
            (if useBg then
              ((l.map (fun rc => cellStatsUI data canvasW cw ch rc.1 rc.2)).filter
                (fun cd => !cd.isTransparent)).map (fun cd => cd.darkColor)
            else []) } := by
  intro l
  induction l with
  | nil => intro acc; simp
  | cons rc l' ih =>
    intro acc
    rw [List.foldl_cons, ih]
    cases htr : (cellStatsUI data canvasW cw ch rc.1 rc.2).isTransparent <;>
      cases useBg <;>
        simp [firstPassStep, htr, List.filter_cons]

lemma firstPassUI_spec (data : List ℕ) (canvasW cw ch rows cols : ℕ)
    (useBg : Bool) :
    firstPassUI data canvasW cw ch rows cols useBg =
      { cells := cellListUI data canvasW cw ch rows cols
        allFgColors :=
          ((cellListUI data canvasW cw ch rows cols).filter
            (fun cd => !cd.isTransparent)).map (fun cd => cd.avgColor)
        allBgColors :=
          if useBg then
            ((cellListUI data canvasW cw ch rows cols).filter
              (fun cd => !cd.isTransparent)).map (fun cd => cd.darkColor)
          else [] } := by
  unfold firstPassUI cellListUI
  rw [firstPass_fold]
  simp

lemma cellStatsUI_mem_cellList (data : List ℕ) (canvasW cw ch rows cols r c : ℕ)
    (hr : r < rows) (hc : c < cols) :
    cellStatsUI data canvasW cw ch r c ∈ cellListUI data canvasW cw ch rows cols := by
  unfold cellListUI cellPairs
  simp only [List.mem_map, List.mem_flatMap, List.mem_range]
  exact ⟨(r, c), ⟨r, hr, by simp [hc]⟩, rfl⟩

lemma processImageUI_cell (ambientFg ambientBg : ℕ → ℚ) (fuel imgW imgH : ℕ)
    (data : List ℕ) (textWidth : ℕ) (charSet : CharSetKey)
    (algorithm : AlgorithmType) (kf kb : ℕ) (useBg : Bool)
    (templates : List CharTemplate) (gpu : Option (Except String (List ℕ)))
    (r c : ℕ) (hr : r < cdiv imgH (cdiv imgW textWidth * 2))
    (hc : c < textWidth) :
    ((processImageUI ambientFg ambientBg fuel imgW imgH data textWidth charSet
        algorithm kf kb useBg templates gpu).getD r []).getD c blankUI =
      secondPassCellUI (CHAR_SETS charSet)
        (decide (algorithm = AlgorithmType.structureMode)) templates
        (if (decide (algorithm = AlgorithmType.structureMode)) then
          effectiveGpuResults gpu else none)
        (kMeansClusterInteractive ambientFg fuel
          (firstPassUI data (textWidth * cdiv imgW textWidth)
            (cdiv imgW textWidth) (cdiv imgW textWidth * 2)
            (cdiv imgH (cdiv imgW textWidth * 2)) textWidth useBg).allFgColors
          kf)
        (if useBg then
          kMeansClusterInteractive ambientBg fuel
            (firstPassUI data (textWidth * cdiv imgW textWidth)
              (cdiv imgW textWidth) (cdiv imgW textWidth * 2)
              (cdiv imgH (cdiv imgW textWidth * 2)) textWidth
              useBg).allBgColors kb
        else [⟨0, 0, 0⟩])
        useBg (r * textWidth + c)
        (cellStatsUI data (textWidth * cdiv imgW textWidth)
          (cdiv imgW textWidth) (cdiv imgW textWidth * 2) r c) := by
  simp only [processImageUI]
  rw [range_map_getD _ _ _ hr, range_map_getD _ _ _ hc]
  congr 1
  rw [firstPassUI_spec]
  show (cellListUI _ _ _ _ _ _).getD (r * textWidth + c) dummyCellUI = _
  unfold cellListUI
  rw [map_getD_of_lt _ _ _
    (by rw [cellPairs_length]; exact rc_index_lt _ _ _ _ hr hc) _ ((0, 0) : ℕ × ℕ)]
  rw [cellPairs_getD _ _ _ _ _ hr hc]

/-! # Claim C4 -/

/-- A fully transparent 1×2 canvas (one cell at `textWidth = 1`,
`imgW = 1`, `imgH = 2`): every alpha byte is zero. -/
def transparentBuf : List ℕ := [0, 0, 0, 0, 0, 0, 0, 0]

/-- C4: a cell whose mean alpha over the full cell is below 128 is marked
transparent and emitted as the blank sentinel (bypassing character
matching), and the clustering inputs of both palettes consist exactly of
the `avgColor`s (resp. `darkColor`s, when background colours are enabled)
of the non-transparent cells — transparent cells are excluded from both. -/
theorem c4_transparent_cell (ambientFg ambientBg : ℕ → ℚ) (fuel imgW imgH : ℕ)
    (data : List ℕ) (textWidth : ℕ) (charSet : CharSetKey)
    (algorithm : AlgorithmType) (kf kb : ℕ) (useBg : Bool)
    (templates : List CharTemplate) (gpu : Option (Except String (List ℕ)))
    (r c : ℕ) (hr : r < cdiv imgH (cdiv imgW textWidth * 2))
    (hc : c < textWidth)
    (ht : (cellStatsUI data (textWidth * cdiv imgW textWidth)
        (cdiv imgW textWidth) (cdiv imgW textWidth * 2) r c).isTransparent = true) :
    ((processImageUI ambientFg ambientBg fuel imgW imgH data textWidth charSet
        algorithm kf kb useBg templates gpu).getD r []).getD c blankUI =
      blankUI ∧
    (firstPassUI data (textWidth * cdiv imgW textWidth) (cdiv imgW textWidth)
        (cdiv imgW textWidth * 2) (cdiv imgH (cdiv imgW textWidth * 2))
        textWidth useBg).allFgColors =
      ((cellListUI data (textWidth * cdiv imgW textWidth) (cdiv imgW textWidth)
          (cdiv imgW textWidth * 2) (cdiv imgH (cdiv imgW textWidth * 2))
          textWidth).filter (fun cd => !cd.isTransparent)).map
        (fun cd => cd.avgColor) ∧
    (firstPassUI data (textWidth * cdiv imgW textWidth) (cdiv imgW textWidth)
        (cdiv imgW textWidth * 2) (cdiv imgH (cdiv imgW textWidth * 2))
        textWidth useBg).allBgColors =
      (if useBg then
        ((cellListUI data (textWidth * cdiv imgW textWidth)
            (cdiv imgW textWidth) (cdiv imgW textWidth * 2)
            (cdiv imgH (cdiv imgW textWidth * 2)) textWidth).filter
          (fun cd => !cd.isTransparent)).map (fun cd => cd.darkColor)
      else []) := by
  refine ⟨?_, ?_, ?_⟩
  · rw [processImageUI_cell ambientFg ambientBg fuel imgW imgH data textWidth
      charSet algorithm kf kb useBg templates gpu r c hr hc]
    unfold secondPassCellUI
    rw [ht]
    simp
  · rw [firstPassUI_spec]
  · rw [firstPassUI_spec]

/-- Witness for `c4_transparent_cell` on the fully transparent canvas. -/
theorem c4_transparent_cell_witness :
    (0 < cdiv 2 (cdiv 1 1 * 2) ∧ 0 < 1 ∧
      (cellStatsUI transparentBuf (1 * cdiv 1 1) (cdiv 1 1) (cdiv 1 1 * 2)
        0 0).isTransparent = true) ∧
    ((processImageUI (fun _ => 0) (fun _ => 0) 1 1 2 transparentBuf 1
        .standard .brightnessMode 2 1 true [] none).getD 0 []).getD 0
      blankUI = blankUI :=
  ⟨⟨by decide, by decide,
      by norm_num [cellStatsUI, cellIdxList, pxChan, transparentBuf,
        List.range_succ, cdiv]⟩,
    (c4_transparent_cell (fun _ => 0) (fun _ => 0) 1 1 2 transparentBuf 1
      .standard .brightnessMode 2 1 true [] none 0 0 (by decide) (by decide)
      (by norm_num [cellStatsUI, cellIdxList, pxChan, transparentBuf,
        List.range_succ, cdiv])).1⟩

/-! # Claim C9 -/

/-- C9: within a generation call, the nearest-colour lookups always have a
well-defined result.  For every non-transparent cell of the output grid
(with `fuel ≥ 1` and requested counts `≥ 1`, as the UI guarantees), both the
foreground and the background colour of the emitted cell are defined: the
cell's `avgColor` (and `darkColor` when background colours are enabled) is
in the clustering input, so the quantiser's palette is nonempty and
`findNearestColor` returns a colour rather than `undefined`. -/
theorem c9_lookup_always_defined (ambientFg ambientBg : ℕ → ℚ)
    (fuel imgW imgH : ℕ) (data : List ℕ) (textWidth : ℕ)
    (charSet : CharSetKey) (algorithm : AlgorithmType) (kf kb : ℕ)
    (useBg : Bool) (templates : List CharTemplate)
    (gpu : Option (Except String (List ℕ))) (r c : ℕ)
    (hfuel : 1 ≤ fuel) (hkf : 1 ≤ kf) (hkb : 1 ≤ kb)
    (hr : r < cdiv imgH (cdiv imgW textWidth * 2)) (hc : c < textWidth)
    (ht : (cellStatsUI data (textWidth * cdiv imgW textWidth)
        (cdiv imgW textWidth) (cdiv imgW textWidth * 2) r c).isTransparent =
      false) :
    (((processImageUI ambientFg ambientBg fuel imgW imgH data textWidth
        charSet algorithm kf kb useBg templates gpu).getD r []).getD c
        blankUI).fgColor.isSome = true ∧
    (((processImageUI ambientFg ambientBg fuel imgW imgH data textWidth
        charSet algorithm kf kb useBg templates gpu).getD r []).getD c
        blankUI).bgColor.isSome = true := by
  rw [processImageUI_cell ambientFg ambientBg fuel imgW imgH data textWidth
    charSet algorithm kf kb useBg templates gpu r c hr hc]
  unfold secondPassCellUI
  rw [ht]
  have hmem := cellStatsUI_mem_cellList data (textWidth * cdiv imgW textWidth)
    (cdiv imgW textWidth) (cdiv imgW textWidth * 2)
    (cdiv imgH (cdiv imgW textWidth * 2)) textWidth r c hr hc
  constructor
  · simp only [Bool.false_eq_true, if_false]
    apply findNearestColor_isSome
    unfold kMeansClusterInteractive
    apply kMeansWithSampler_ne_nil _ _ _ _ _ hfuel hkf
    rw [firstPassUI_spec]
    exact List.ne_nil_of_mem
      (List.mem_map_of_mem _ (List.mem_filter.mpr ⟨hmem, by simp [ht]⟩))
  · simp only [Bool.false_eq_true, if_false]
    cases hub : useBg
    · simp
    · simp only [if_true]
      apply findNearestColor_isSome
      unfold kMeansClusterInteractive
      apply kMeansWithSampler_ne_nil _ _ _ _ _ hfuel hkb
      rw [firstPassUI_spec]
      simp only [hub, if_true]
      exact List.ne_nil_of_mem
        (List.mem_map_of_mem _ (List.mem_filter.mpr ⟨hmem, by simp [ht]⟩))

/-- Witness for `c9_lookup_always_defined` on a fully opaque red canvas. -/
theorem c9_lookup_always_defined_witness :
    (1 ≤ 1 ∧ 1 ≤ 2 ∧ 1 ≤ 1 ∧ 0 < cdiv 2 (cdiv 1 1 * 2) ∧ 0 < 1 ∧
      (cellStatsUI redBuf (1 * cdiv 1 1) (cdiv 1 1) (cdiv 1 1 * 2)
        0 0).isTransparent = false) ∧
    (((processImageUI (fun _ => 0) (fun _ => 0) 1 1 2 redBuf 1 .standard
        .brightnessMode 2 1 true [] none).getD 0 []).getD 0
        blankUI).fgColor.isSome = true :=
  ⟨⟨by decide, by decide, by decide, by decide, by decide,
      by norm_num [cellStatsUI, cellIdxList, pxChan, redBuf,
        List.range_succ, cdiv]⟩,
    (c9_lookup_always_defined (fun _ => 0) (fun _ => 0) 1 1 2 redBuf 1
      .standard .brightnessMode 2 1 true [] none 0 0 (by decide) (by decide)
      (by decide) (by decide) (by decide)
      (by norm_num [cellStatsUI, cellIdxList, pxChan, redBuf,
        List.range_succ, cdiv])).1⟩

/-! # Lemmas: one k-means round equals the spec's round -/

lemma nearestIdxGo_lt (c : RGB) :
    ∀ (l : List RGB) (i : ℕ) (bd : Option ℚ) (best : ℕ),
      (match bd with | none => l ≠ [] | some _ => best < i) →
      nearestIdxGo c l i bd best < i + l.length := by
  intro l
  induction l with
  | nil =>
    intro i bd best h
    cases bd with
    | none => exact absurd rfl h
    | some d0 => simpa [nearestIdxGo] using h
  | cons p ps ih =>
    intro i bd best h
    simp only [nearestIdxGo]
    split_ifs with hcond
    · have h2 := ih (i + 1) (some (distSq c p)) i (Nat.lt_succ_self i)
      simp only [List.length_cons]
      omega
    · cases bd with
      | none => simp at hcond
      | some d0 =>
        have h2 := ih (i + 1) (some d0) best (Nat.lt_succ_of_lt h)
        simp only [List.length_cons]
        omega

lemma nearestIdx_lt (c : RGB) (cents : List RGB) (h : cents ≠ []) :
    nearestIdx c cents < cents.length := by
  simpa using nearestIdxGo_lt c cents 0 none 0 h

lemma nearestIdx_lt_k (c : RGB) (cents : List RGB) (k : ℕ) (hk : 1 ≤ k)
    (hlen : cents.length ≤ k) : nearestIdx c cents < k := by
  cases cents with
  | nil => simpa [nearestIdx, nearestIdxGo] using hk
  | cons p ps =>
    exact lt_of_lt_of_le (nearestIdx_lt c (p :: ps) (by simp)) hlen

lemma foldl_push_getD (cents : List RGB) :
    ∀ (colors : List RGB) (cl : List (List RGB)) (i : ℕ),
      (∀ c0 : RGB, nearestIdx c0 cents < cl.length) →
      (colors.foldl
        (fun cl2 c =>
          cl2.set (nearestIdx c cents)
            ((cl2.getD (nearestIdx c cents) []) ++ [c])) cl).getD i [] =
        cl.getD i [] ++ colors.filter (fun c => nearestIdx c cents = i) := by
  intro colors
  induction colors with
  | nil => intro cl i _; simp
  | cons c0 cs ih =>
    intro cl i hlt
    rw [List.foldl_cons,
      ih _ i (fun x => by rw [List.length_set]; exact hlt x),
      List.filter_cons]
    by_cases hj : nearestIdx c0 cents = i
    · have hset : (cl.set (nearestIdx c0 cents)
          ((cl.getD (nearestIdx c0 cents) []) ++ [c0])).getD i [] =
          cl.getD i [] ++ [c0] := by
        rw [hj, List.getD_eq_getElem?_getD,
          List.getElem?_set_self (hj ▸ hlt c0), Option.getD_some]
      rw [hset]
      simp [hj, List.append_assoc]
    · have hset : (cl.set (nearestIdx c0 cents)
          ((cl.getD (nearestIdx c0 cents) []) ++ [c0])).getD i [] =
          cl.getD i [] := by
        rw [List.getD_eq_getElem?_getD, List.getElem?_set_ne hj,
          ← List.getD_eq_getElem?_getD]
      rw [hset]
      simp [hj]

lemma buildClusters_getD (cents colors : List RGB) (k i : ℕ) (hk : 1 ≤ k)
    (hlen : cents.length ≤ k) :
    (buildClusters cents colors k).getD i [] =
      colors.filter (fun c => nearestIdx c cents = i) := by
  unfold buildClusters
  rw [foldl_push_getD cents colors (List.replicate k []) i
    (fun c0 => by rw [List.length_replicate]; exact nearestIdx_lt_k c0 cents k hk hlen)]
  have hrep : (List.replicate k ([] : List RGB)).getD i [] = [] := by
    rw [List.getD_eq_getElem?_getD]
    rcases lt_or_ge i k with h | h
    · simp [List.getElem?_replicate, h]
    · rw [List.getElem?_eq_none (by simpa using h)]; rfl
  rw [hrep, List.nil_append]

lemma updateCentroids_getElem (clusters : List (List RGB)) (cents : List RGB) :
    ∀ (k j : ℕ),
      (updateCentroids k clusters cents)[j]? =
        if j < k ∧ (clusters.getD j []) ≠ [] then
          (if j < cents.length then
            some (roundedMeanRGB (clusters.getD j [])) else none)
        else cents[j]? := by
  intro k
  induction k with
  | zero => intro j; simp [updateCentroids]
  | succ k ih =>
    intro j
    have hstep : updateCentroids (k + 1) clusters cents =
        (if (clusters.getD k []) = [] then updateCentroids k clusters cents
         else (updateCentroids k clusters cents).set k
           (roundedMeanRGB (clusters.getD k []))) := by
      unfold updateCentroids
      rw [List.range_succ, List.foldl_append, List.foldl_cons, List.foldl_nil]
    rw [hstep]
    by_cases hcl : clusters.getD k [] = []
    · rw [if_pos hcl, ih j]
      by_cases hj : j = k
      · subst hj
        rw [if_neg (fun hx => lt_irrefl j hx.1), if_neg (fun hx => hx.2 hcl)]
      · have hiff : (j < k ∧ (clusters.getD j []) ≠ []) ↔
            (j < k + 1 ∧ (clusters.getD j []) ≠ []) := by
          constructor
          · rintro ⟨h1, h2⟩; exact ⟨by omega, h2⟩
          · rintro ⟨h1, h2⟩; exact ⟨by omega, h2⟩
        simp only [hiff]
    · rw [if_neg hcl, List.getElem?_set]
      by_cases hj : k = j
      · subst hj
        rw [if_pos rfl, updateCentroids_length]
        rw [if_pos (show k < k + 1 ∧ clusters.getD k [] ≠ [] from
          ⟨Nat.lt_succ_self k, hcl⟩)]
      · rw [if_neg hj, ih j]
        have hiff : (j < k ∧ (clusters.getD j []) ≠ []) ↔
            (j < k + 1 ∧ (clusters.getD j []) ≠ []) := by
          constructor
          · rintro ⟨h1, h2⟩; exact ⟨by omega, h2⟩
          · rintro ⟨h1, h2⟩
            refine ⟨?_, h2⟩
            rcases Nat.lt_succ_iff_lt_or_eq.mp h1 with h | h
            · exact h
            · exact absurd h (Ne.symm hj)
        simp only [hiff]

lemma specRound_length (mean : List RGB → RGB) (colors cents : List RGB) :
    (specRound mean colors cents).length = cents.length := by
  simp [specRound]

lemma specRound_getElem (mean : List RGB → RGB) (colors cents : List RGB)
    (j : ℕ) :
    (specRound mean colors cents)[j]? =
      if j < cents.length then
        some (if specAssigned colors cents j = [] then cents.getD j ⟨0, 0, 0⟩
          else mean (specAssigned colors cents j))
      else none := by
  unfold specRound
  rcases lt_or_ge j cents.length with h | h
  · rw [List.getElem?_map, List.getElem?_range h]
    simp [h]
  · rw [List.getElem?_map, List.getElem?_eq_none (by simpa using h)]
    simp [not_lt.mpr h]

lemma kmeansRound_eq_specRound (k : ℕ) (colors cents : List RGB)
    (hk : 1 ≤ k) (hlen : cents.length ≤ k) :
    kmeansRound k colors cents = specRound roundedMeanRGB colors cents := by
  apply List.ext_getElem?
  intro j
  unfold kmeansRound
  rw [updateCentroids_getElem, specRound_getElem,
    buildClusters_getD cents colors k j hk hlen]
  unfold specAssigned
  rcases lt_or_ge j cents.length with h | h
  · rw [if_pos h]
    by_cases hf : colors.filter (fun c => nearestIdx c cents = j) = []
    · rw [if_neg (by rintro ⟨_, h2⟩; exact h2 hf), hf,
        List.getElem?_eq_getElem h, if_pos rfl, List.getD_eq_getElem _ _ h,
        if_pos h]
    · rw [if_pos ⟨lt_of_lt_of_le h hlen, hf⟩, if_pos h]
      simp [hf]
  · simp only [if_neg (not_lt.mpr h)]
    split_ifs with h1
    · rfl
    · exact List.getElem?_eq_none (by omega)

lemma iterate_round_eq_spec (k : ℕ) (colors : List RGB) (hk : 1 ≤ k) :
    ∀ (m : ℕ) (cents : List RGB), cents.length ≤ k →
      (kmeansRound k colors)^[m] cents =
        (specRound roundedMeanRGB colors)^[m] cents := by
  intro m
  induction m with
  | zero => intro cents _; rfl
  | succ n ih =>
    intro cents hlen
    rw [Function.iterate_succ_apply, Function.iterate_succ_apply,
      kmeansRound_eq_specRound k colors cents hk hlen,
      ih _ (by rw [specRound_length]; exact hlen)]

/-! # Claim C3 -/

/-- C3, counterexample.  The claim says centroids are recomputed as *the
mean* of the assigned observations.  On observations `(0,0,0)` and
`(1,0,0)` with `k = 1`, every round assigns both observations to the single
centroid: the source's update stores `Math.round(1/2) = 1`, while the
claimed exact-mean algorithm (`specKMeans exactMeanRGB`, same seeding, same
rounds) yields `1/2` — the outputs differ. -/
theorem c3_counterexample :
    kMeansCluster (fun _ => 0) 1 [⟨0, 0, 0⟩, ⟨1, 0, 0⟩] 1 = [⟨1, 0, 0⟩] ∧
    specKMeans exactMeanRGB (lcgSampler 2) 1 [⟨0, 0, 0⟩, ⟨1, 0, 0⟩] 1 =
      [⟨1/2, 0, 0⟩] ∧
    ([(⟨1, 0, 0⟩ : RGB)] : List RGB) ≠ [⟨1/2, 0, 0⟩] := by
  have hseed : seedLoop (lcgSampler 2) [⟨0, 0, 0⟩, ⟨1, 0, 0⟩] 1 1 0 ∅ [] =
      [⟨0, 0, 0⟩] := by
    norm_num [seedLoop, drawIdx, lcgSampler, lcgStep, Function.iterate_one]
  refine ⟨?_, ?_, ?_⟩
  · have h1 : kmeansRound 1 [⟨0, 0, 0⟩, ⟨1, 0, 0⟩] [⟨0, 0, 0⟩] = [⟨1, 0, 0⟩] := by
      norm_num [kmeansRound, buildClusters, updateCentroids, nearestIdx,
        nearestIdxGo, distSq, roundedMeanRGB, jsRound, List.range_succ]
      simp
    have h2 : kmeansRound 1 [⟨0, 0, 0⟩, ⟨1, 0, 0⟩] [⟨1, 0, 0⟩] = [⟨1, 0, 0⟩] := by
      norm_num [kmeansRound, buildClusters, updateCentroids, nearestIdx,
        nearestIdxGo, distSq, roundedMeanRGB, jsRound, List.range_succ]
    show kMeansWithSampler (lcgSampler 2) 1 [⟨0, 0, 0⟩, ⟨1, 0, 0⟩] 1 10 =
      [⟨1, 0, 0⟩]
    rw [kMeansWithSampler, if_neg (by simp), if_neg (by norm_num), hseed,
      show (10 : ℕ) = 9 + 1 from rfl, Function.iterate_succ_apply, h1,
      Function.iterate_fixed h2 9]
  · have h1s : specRound exactMeanRGB [⟨0, 0, 0⟩, ⟨1, 0, 0⟩] [⟨0, 0, 0⟩] =
        [⟨1/2, 0, 0⟩] := by
      norm_num [specRound, specAssigned, exactMeanRGB, nearestIdx,
        nearestIdxGo, distSq, List.range_succ]
    have h2s : specRound exactMeanRGB [⟨0, 0, 0⟩, ⟨1, 0, 0⟩] [⟨1/2, 0, 0⟩] =
        [⟨1/2, 0, 0⟩] := by
      norm_num [specRound, specAssigned, exactMeanRGB, nearestIdx,
        nearestIdxGo, distSq, List.range_succ]
    rw [specKMeans, if_neg (by simp), if_neg (by norm_num), hseed,
      show (10 : ℕ) = 9 + 1 from rfl, Function.iterate_succ_apply, h1s,
      Function.iterate_fixed h2s 9]
  · simp [RGB.mk.injEq]

/-- C3, amended: `kMeansCluster` implements the specified algorithm — the
observations verbatim when their count is at most `k`, otherwise seeding by
sampling without replacement followed by exactly 10 refinement rounds, each
assigning every observation to its nearest centroid by Euclidean RGB
distance, with a zero-assignment centroid keeping its position — with one
deviation: a recomputed centroid is the channel-wise `Math.round`ed mean of
its assigned observations, not the exact mean. -/
theorem c3_kmeans_matches_spec_with_rounding (sampler : ℕ → ℚ) (fuel : ℕ)
    (colors : List RGB) (k : ℕ) (hk : 1 ≤ k) :
    kMeansWithSampler sampler fuel colors k 10 =
      specKMeans roundedMeanRGB sampler fuel colors k := by
  unfold kMeansWithSampler specKMeans
  split_ifs with h0 h1
  · rfl
  · rfl
  · exact iterate_round_eq_spec k colors hk 10 _
      (seedLoop_length_le _ _ _ _ _ _ _ (by simp))

/-- Witness for `c3_kmeans_matches_spec_with_rounding` at a concrete
input. -/
theorem c3_kmeans_matches_spec_witness :
    1 ≤ 1 ∧
    kMeansWithSampler (fun _ => 0) 1 [⟨0, 0, 0⟩, ⟨1, 0, 0⟩] 1 10 =
      specKMeans roundedMeanRGB (fun _ => 0) 1 [⟨0, 0, 0⟩, ⟨1, 0, 0⟩] 1 :=
  ⟨le_refl 1,
    c3_kmeans_matches_spec_with_rounding (fun _ => 0) 1
      [⟨0, 0, 0⟩, ⟨1, 0, 0⟩] 1 (le_refl 1)⟩

/-! # Lemmas: SSIM statistics and the CPU matcher -/

lemma sum_eq_range (l : List ℚ) :
    l.sum = ∑ i ∈ Finset.range l.length, l.getD i 0 := by
  induction l with
  | nil => simp
  | cons x xs ih =>
    rw [List.sum_cons, ih, List.length_cons, Finset.sum_range_succ']
    simp only [List.getD_cons_succ, List.getD_cons_zero]
    rw [add_comm]

lemma map_sum_eq_range (l : List ℚ) (f : ℚ → ℚ) :
    (l.map f).sum = ∑ i ∈ Finset.range l.length, f (l.getD i 0) := by
  rw [sum_eq_range, List.length_map]
  exact Finset.sum_congr rfl fun i hi =>
    map_getD_of_lt l f i (Finset.mem_range.mp hi) 0 0

lemma zip_sum_eq_range (f : ℚ → ℚ → ℚ) (l1 l2 : List ℚ)
    (h : l1.length = l2.length) :
    (List.zipWith f l1 l2).sum =
      ∑ i ∈ Finset.range l1.length, f (l1.getD i 0) (l2.getD i 0) := by
  rw [sum_eq_range, List.length_zipWith, ← h, min_self]
  refine Finset.sum_congr rfl fun i hi => ?_
  have hi1 := Finset.mem_range.mp hi
  have hi2 : i < l2.length := h ▸ hi1
  have hiz : i < (List.zipWith f l1 l2).length := by
    rw [List.length_zipWith, ← h, min_self]; exact hi1
  rw [List.getD_eq_getElem _ _ hiz, List.getD_eq_getElem _ _ hi1,
    List.getD_eq_getElem _ _ hi2, List.getElem_zipWith]

lemma sum_sq_expand (m1 m2 : ℚ) :
    ∀ (l1 l2 : List ℚ), l1.length = l2.length →
      (l1.map (fun x => (x - m1) ^ 2)).sum +
        (l2.map (fun x => (x - m2) ^ 2)).sum +
        2 * (List.zipWith (fun a b => (a - m1) * (b - m2)) l1 l2).sum =
      (List.zipWith (fun a b => ((a - m1) + (b - m2)) ^ 2) l1 l2).sum := by
  intro l1
  induction l1 with
  | nil =>
    intro l2 h
    have : l2 = [] := List.length_eq_zero.mp (by simpa using h.symm)
    subst this
    simp
  | cons x xs ih =>
    intro l2 h
    cases l2 with
    | nil => simp at h
    | cons y ys =>
      have hlen : xs.length = ys.length := by simpa using h
      simp only [List.map_cons, List.sum_cons, List.zipWith_cons_cons]
      rw [← ih ys hlen]
      ring

lemma zipWith_sum_nonneg (f : ℚ → ℚ → ℚ) (hf : ∀ a b, 0 ≤ f a b) :
    ∀ (l1 l2 : List ℚ), 0 ≤ (List.zipWith f l1 l2).sum := by
  intro l1
  induction l1 with
  | nil => intro l2; simp
  | cons x xs ih =>
    intro l2
    cases l2 with
    | nil => simp
    | cons y ys =>
      rw [List.zipWith_cons_cons, List.sum_cons]
      exact add_nonneg (hf x y) (ih ys)

lemma listMean_nonneg (l : List ℚ) (h : ∀ x ∈ l, 0 ≤ x) : 0 ≤ listMean l :=
  div_nonneg (List.sum_nonneg h) (Nat.cast_nonneg _)

lemma listVar_nonneg (l : List ℚ) (m : ℚ) : 0 ≤ listVar l m := by
  refine div_nonneg (List.sum_nonneg fun x hx => ?_) (Nat.cast_nonneg _)
  obtain ⟨y, _, rfl⟩ := List.mem_map.mp hx
  positivity

lemma var_covar_nonneg (l1 l2 : List ℚ) (m1 m2 : ℚ)
    (h : l1.length = l2.length) :
    0 ≤ listVar l1 m1 + listVar l2 m2 + 2 * listCovar l1 l2 m1 m2 := by
  have hs : listVar l1 m1 + listVar l2 m2 + 2 * listCovar l1 l2 m1 m2 =
      ((List.zipWith (fun a b => ((a - m1) + (b - m2)) ^ 2) l1 l2).sum) /
        l1.length := by
    unfold listVar listCovar
    rw [← h, ← sum_sq_expand m1 m2 l1 l2 h]
    ring
  rw [hs]
  exact div_nonneg
    (zipWith_sum_nonneg _ (fun a b => sq_nonneg _) l1 l2) (Nat.cast_nonneg _)

lemma ssimC1_pos : 0 < ssimC1 := by norm_num [ssimC1]

lemma ssimC2_pos : 0 < ssimC2 := by norm_num [ssimC2]

lemma ssimFormula_gt_neg_one (m1 m2 v1 v2 cov : ℚ) (hm1 : 0 ≤ m1)
    (hm2 : 0 ≤ m2) (hv1 : 0 ≤ v1) (hv2 : 0 ≤ v2)
    (hplus : 0 ≤ v1 + v2 + 2 * cov) :
    -1 < ssimFormula m1 m2 v1 v2 cov := by
  unfold ssimFormula
  have hc1 := ssimC1_pos
  have hc2 := ssimC2_pos
  have hA : 0 < 2 * m1 * m2 + ssimC1 := by positivity
  have hAC : 2 * m1 * m2 + ssimC1 ≤ m1 ^ 2 + m2 ^ 2 + ssimC1 := by
    nlinarith [sq_nonneg (m1 - m2)]
  have hC : 0 < m1 ^ 2 + m2 ^ 2 + ssimC1 := lt_of_lt_of_le hA hAC
  have hD : 0 < v1 + v2 + ssimC2 := by linarith
  have hBD : 0 < (2 * cov + ssimC2) + (v1 + v2 + ssimC2) := by linarith
  rw [lt_div_iff₀ (by positivity)]
  nlinarith [mul_pos hA hBD,
    mul_nonneg (sub_nonneg.mpr hAC) hD.le]

lemma calculateSSIM_gt_neg_one (img1 img2 : List ℚ)
    (hlen : img1.length = img2.length) (hne : img1 ≠ [])
    (h1 : ∀ x ∈ img1, 0 ≤ x) (h2 : ∀ x ∈ img2, 0 ≤ x) :
    -1 < calculateSSIM img1 img2 := by
  rw [calculateSSIM, if_neg (by push_neg; exact ⟨hlen, by simpa using hne⟩)]
  exact ssimFormula_gt_neg_one _ _ _ _ _ (listMean_nonneg img1 h1)
    (listMean_nonneg img2 h2) (listVar_nonneg _ _) (listVar_nonneg _ _)
    (var_covar_nonneg img1 img2 _ _ hlen)

lemma calculateSSIM_eq_specSSIM (img1 img2 : List ℚ)
    (hlen : img1.length = img2.length) (hne : img1 ≠ []) :
    calculateSSIM img1 img2 =
      specSSIM img1.length (fun i => img1.getD i 0) (fun i => img2.getD i 0) := by
  have hm1 : listMean img1 = (∑ i ∈ Finset.range img1.length, img1.getD i 0) /
      (img1.length : ℚ) := by
    rw [listMean, sum_eq_range]
  have hm2 : listMean img2 = (∑ i ∈ Finset.range img1.length, img2.getD i 0) /
      (img1.length : ℚ) := by
    rw [listMean, sum_eq_range, hlen]
  rw [calculateSSIM, if_neg (by push_neg; exact ⟨hlen, by simpa using hne⟩)]
  unfold specSSIM listVar listCovar
  rw [map_sum_eq_range, map_sum_eq_range,
    zip_sum_eq_range (fun a b => (a - listMean img1) * (b - listMean img2))
      img1 img2 hlen]
  simp only [hm1, hm2, ← hlen]

/-- Default template for positional indexing in statements (never selected
at in-range indices). -/
def defaultTemplate : CharTemplate := ⟨' ', [], 0, 0⟩

lemma foldl_best (g : List ℚ) :
    ∀ (l : List CharTemplate) (b : ℚ) (ch : Char),
      (l.foldl (fun best t =>
          if best.1 < calculateSSIM g t.data then
            (calculateSSIM g t.data, t.char)
          else best) (b, ch) = (b, ch)
        ∧ ∀ t ∈ l, calculateSSIM g t.data ≤ b)
      ∨ (∃ i < l.length,
          l.foldl (fun best t =>
            if best.1 < calculateSSIM g t.data then
              (calculateSSIM g t.data, t.char)
            else best) (b, ch) =
            (calculateSSIM g ((l.getD i defaultTemplate).data),
             (l.getD i defaultTemplate).char)
          ∧ b < calculateSSIM g ((l.getD i defaultTemplate).data)
          ∧ (∀ j < l.length, calculateSSIM g ((l.getD j defaultTemplate).data) ≤
              calculateSSIM g ((l.getD i defaultTemplate).data))
          ∧ (∀ j < i, calculateSSIM g ((l.getD j defaultTemplate).data) <
              calculateSSIM g ((l.getD i defaultTemplate).data))) := by
  intro l
  induction l with
  | nil =>
    intro b ch
    left
    exact ⟨rfl, by simp⟩
  | cons t ts ih =>
    intro b ch
    rw [List.foldl_cons]
    by_cases hbt : b < calculateSSIM g t.data
    · rw [if_pos hbt]
      rcases ih (calculateSSIM g t.data) t.char with ⟨heq, hall⟩ |
        ⟨i, hi, heq, hgt, hmax, hfirst⟩
      · right
        refine ⟨0, by simp, ?_, ?_, ?_, ?_⟩
        · simpa [List.getD_cons_zero] using heq
        · simpa [List.getD_cons_zero] using hbt
        · intro j hj
          cases j with
          | zero => simp
          | succ j' =>
            simp only [List.getD_cons_succ, List.getD_cons_zero]
            have hj' : j' < ts.length := by simpa using hj
            exact hall _ (by rw [List.getD_eq_getElem _ _ hj']
                             exact List.getElem_mem hj')
        · intro j hj
          exact absurd hj (Nat.not_lt_zero j)
      · right
        refine ⟨i + 1, by simpa using hi, ?_, ?_, ?_, ?_⟩
        · simpa [List.getD_cons_succ] using heq
        · simpa [List.getD_cons_succ] using lt_trans hbt hgt
        · intro j hj
          cases j with
          | zero =>
            simp only [List.getD_cons_succ, List.getD_cons_zero]
            exact le_of_lt hgt
          | succ j' =>
            simp only [List.getD_cons_succ]
            exact hmax j' (by simpa using hj)
        · intro j hj
          cases j with
          | zero =>
            simp only [List.getD_cons_succ, List.getD_cons_zero]
            exact hgt
          | succ j' =>
            simp only [List.getD_cons_succ]
            exact hfirst j' (by omega)
    · rw [if_neg hbt]
      rcases ih b ch with ⟨heq, hall⟩ | ⟨i, hi, heq, hgt, hmax, hfirst⟩
      · left
        refine ⟨heq, ?_⟩
        intro t' ht'
        rcases List.mem_cons.mp ht' with rfl | h
        · exact not_lt.mp hbt
        · exact hall t' h
      · right
        refine ⟨i + 1, by simpa using hi,
          by simpa [List.getD_cons_succ] using heq,
          by simpa [List.getD_cons_succ] using hgt, ?_, ?_⟩
        · intro j hj
          cases j with
          | zero =>
            simp only [List.getD_cons_succ, List.getD_cons_zero]
            exact le_of_lt (lt_of_le_of_lt (not_lt.mp hbt) hgt)
          | succ j' =>
            simp only [List.getD_cons_succ]
            exact hmax j' (by simpa using hj)
        · intro j hj
          cases j with
          | zero =>
            simp only [List.getD_cons_succ, List.getD_cons_zero]
            exact lt_of_le_of_lt (not_lt.mp hbt) hgt
          | succ j' =>
            simp only [List.getD_cons_succ]
            exact hfirst j' (by omega)

/-! # Claim C6 -/

/-- C6: in structure mode the CPU matcher selects, for a cell's grayscale
vector, a template index whose SSIM — the population-statistics formula with
`C1 = (0.01·255)²`, `C2 = (0.03·255)²`, proved equal to the spec's
positional form `specSSIM` — is maximal over all templates, and every
earlier template scores strictly lower: ties go to the first-encountered
candidate in the fixed template ordering. -/
theorem c6_cpu_matcher (g : List ℚ) (templates : List CharTemplate)
    (hne : templates ≠ []) (hg : g ≠ [])
    (hlen : ∀ t ∈ templates, t.data.length = g.length)
    (hgpos : ∀ x ∈ g, 0 ≤ x)
    (htpos : ∀ t ∈ templates, ∀ x ∈ t.data, 0 ≤ x) :
    ∃ i < templates.length,
      cpuMatchChar g templates = (templates.getD i defaultTemplate).char ∧
      (∀ j < templates.length,
        calculateSSIM g ((templates.getD j defaultTemplate).data) ≤
          calculateSSIM g ((templates.getD i defaultTemplate).data)) ∧
      (∀ j < i, calculateSSIM g ((templates.getD j defaultTemplate).data) <
          calculateSSIM g ((templates.getD i defaultTemplate).data)) ∧
      calculateSSIM g ((templates.getD i defaultTemplate).data) =
        specSSIM g.length (fun m => g.getD m 0)
          (fun m => (templates.getD i defaultTemplate).data.getD m 0) := by
  rcases foldl_best g templates (-1) ' ' with ⟨heq, hall⟩ |
    ⟨i, hi, heq, hgt, hmax, hfirst⟩
  · obtain ⟨t, ts, rfl⟩ : ∃ t ts, templates = t :: ts := by
      cases templates with
      | nil => exact absurd rfl hne
      | cons a as => exact ⟨a, as, rfl⟩
    have hhead := hall t (List.mem_cons_self t ts)
    have hmemt : t ∈ t :: ts := List.mem_cons_self t ts
    have hlow := calculateSSIM_gt_neg_one g t.data (hlen t hmemt).symm hg
      hgpos (htpos t hmemt)
    linarith
  · refine ⟨i, hi, ?_, hmax, hfirst, ?_⟩
    · rw [cpuMatchChar, heq]
    · have hmem : templates.getD i defaultTemplate ∈ templates := by
        rw [List.getD_eq_getElem _ _ hi]
        exact List.getElem_mem hi
      exact calculateSSIM_eq_specSSIM g
        (templates.getD i defaultTemplate).data (hlen _ hmem).symm hg

/-- Concrete cell vector for the `c6_cpu_matcher` witness. -/
def witnessCell : List ℚ := [255, 0]

/-- Concrete template set for the `c6_cpu_matcher` witness. -/
def witnessTemplates : List CharTemplate :=
  [⟨'a', [0, 255], 1, 2⟩, ⟨'b', [255, 0], 1, 2⟩]

/-- Witness for `c6_cpu_matcher` at a concrete cell and template set. -/
theorem c6_cpu_matcher_witness :
    (witnessTemplates ≠ [] ∧ witnessCell ≠ [] ∧
      (∀ t ∈ witnessTemplates, t.data.length = witnessCell.length) ∧
      (∀ x ∈ witnessCell, 0 ≤ x) ∧
      (∀ t ∈ witnessTemplates, ∀ x ∈ t.data, 0 ≤ x)) ∧
    (∃ i < witnessTemplates.length,
      cpuMatchChar witnessCell witnessTemplates =
        (witnessTemplates.getD i defaultTemplate).char ∧
      (∀ j < witnessTemplates.length,
        calculateSSIM witnessCell
            ((witnessTemplates.getD j defaultTemplate).data) ≤
          calculateSSIM witnessCell
            ((witnessTemplates.getD i defaultTemplate).data)) ∧
      (∀ j < i,
        calculateSSIM witnessCell
            ((witnessTemplates.getD j defaultTemplate).data) <
          calculateSSIM witnessCell
            ((witnessTemplates.getD i defaultTemplate).data)) ∧
      calculateSSIM witnessCell
          ((witnessTemplates.getD i defaultTemplate).data) =
        specSSIM witnessCell.length (fun m => witnessCell.getD m 0)
          (fun m => (witnessTemplates.getD i defaultTemplate).data.getD m 0)) :=
  ⟨⟨by decide, by decide, by decide, by decide, by decide⟩,
    c6_cpu_matcher witnessCell witnessTemplates (by decide) (by decide)
      (by decide) (by decide) (by decide)⟩
